import Mathlib

/-!
Verification of the graph-specification compiler of mod_rrd (src/mod_rrd.c).

The development shallowly embeds the compiler pipeline of the module:

* token and quoting utilities (`substring_quote`, `getword_quote`,
  `ap_getword`, `escape_colon` / `pescape_colon`, `apr_cstr_tokenize`);
* the element parser `parse_element` and option parser `parse_option`;
* the query assembler `parse_query`;
* the resolver `resolve_rrds` (name table, backing-DEF propagation,
  multiplicity);
* the generator `generate_args` (multiplicity expansion, CDEF rewriting,
  DEF aggregation, PRINT/GPRINT absorption).

Strings are modelled as Lean `String`/`List Char`; APR pools, HTTP request
records and `ap_expr` dynamic expressions are out of scope.  In the request
path (`parse_query`) every `ap_expr_info_t *` argument is NULL, so the
embedding drops the expression fields and models exactly that path; where a
NULL C string is observable (apr_psprintf prints "(null)" for a NULL `%s`)
the embedding uses `Option String` and renders `none` the same way.

Machine integers do not overflow in any modelled computation (all counts
are small array lengths), so `Nat` is used throughout.
-/

set_option autoImplicit false

namespace ModRrd

/-- Single-quote character, kept out of string literals. -/
def sq : String := String.mk [Char.ofNat 39]

/-- Double-quote character. -/
def dq : Char := Char.ofNat 34

/-- Single-quote character (as a `Char`). -/
def q1 : Char := Char.ofNat 39

/-! ### escape_colon / pescape_colon (src/mod_rrd.c lines 344-405) -/

/-- The writing loop of `escape_colon`: every `:` is emitted with a `\`
prefixed; every other character is copied verbatim. -/
def escapeColon : List Char → List Char
  | [] => []
  | c :: rest =>
    if c = ':' then '\\' :: c :: escapeColon rest
    else c :: escapeColon rest

/-- The `found` flag computed by the first (counting) pass of
`escape_colon`: whether the input contains a colon. -/
def colonFound : List Char → Bool
  | [] => false
  | c :: rest => if c = ':' then true else colonFound rest

/-- `pescape_colon`: runs the counting pass; on `APR_NOTFOUND` (no colon)
the input is returned unchanged, otherwise the escaped copy is returned. -/
def pescapeColon (s : List Char) : List Char :=
  if colonFound s then escapeColon s else s

/-- `pescape_colon` lifted to `String` (used when generating argument
lines for file paths and evaluated legends). -/
def pescapeColonS (s : String) : String :=
  String.mk (pescapeColon s.data)

/-- Prepend a character to the first field of a field list. -/
def consField (c : Char) : List (List Char) → List (List Char)
  | [] => [[c]]
  | f :: fs => (c :: f) :: fs

/-- Consumer-side model of splitting a colon-delimited argument field.
Modelled from the spec: the downstream argument consumer treats an
unescaped `:` as a field separator and a backslash-escaped `\:` as a
literal colon; this function performs that split, returning the list of
fields with escapes removed.  (The consumer itself is the external render
engine, out of scope of src/.) -/
def splitUnescColon : List Char → List (List Char)
  | [] => [[]]
  | [c] => if c = ':' then [] :: [[]] else [[c]]
  | c :: c2 :: rest =>
    if c = '\\' then
      if c2 = ':' then consField ':' (splitUnescColon rest)
      else consField c (splitUnescColon (c2 :: rest))
    else if c = ':' then [] :: splitUnescColon (c2 :: rest)
    else consField c (splitUnescColon (c2 :: rest))

/-! ### Word splitting utilities (substring_quote, getword_quote, ap_getword,
apr_cstr_tokenize, apr_punescape_url) -/

/-- `substring_quote` (lines 278-295): copies a scanned segment, collapsing
`\\` and, when a quote character is given, `\<quote>` escape pairs.  The C
loop may inspect one character past the segment; in every call made by
`getword_quote` that character can be neither a backslash nor the quote
(the closing-quote scan would have skipped it), so the in-segment model is
exact. -/
def substringQuote (q : Option Char) : List Char → List Char
  | [] => []
  | c :: rest =>
    if c = '\\' then
      match rest with
      | c2 :: rest2 =>
        if c2 = '\\' ∨ q = some c2 then c2 :: substringQuote q rest2
        else c :: substringQuote q (c2 :: rest2)
      | [] => [c]
    else c :: substringQuote q rest

/-- The closing-quote scan of `getword_quote` (lines 309-318): characters
of the quoted segment, stopping at the first unescaped quote (escape pairs
`\<quote>` and `\\` are stepped over). -/
def quoteScanSeg (q : Char) : List Char → List Char
  | [] => []
  | c :: rest =>
    if c = q then []
    else if c = '\\' then
      match rest with
      | c2 :: rest2 =>
        if c2 = q ∨ c2 = '\\' then c :: c2 :: quoteScanSeg q rest2
        else c :: quoteScanSeg q (c2 :: rest2)
      | [] => [c]
    else c :: quoteScanSeg q rest

/-- Companion of `quoteScanSeg`: the rest of the input starting at the
closing quote (empty when the input ends first). -/
def quoteScanRest (q : Char) : List Char → List Char
  | [] => []
  | c :: rest =>
    if c = q then c :: rest
    else if c = '\\' then
      match rest with
      | c2 :: rest2 =>
        if c2 = q ∨ c2 = '\\' then quoteScanRest q rest2
        else quoteScanRest q (c2 :: rest2)
      | [] => []
    else quoteScanRest q rest

/-- Drop one leading occurrence of `stop` (the `if (*strend == stop)
++strend;` step). -/
def dropOneStop (stop : Char) : List Char → List Char
  | [] => []
  | c :: rest => if c = stop then rest else c :: rest

/-- `getword_quote` (lines 297-342): quote-aware word extraction.  Returns
the parsed word and the remaining input. -/
def getwordQuote (s : List Char) (stop : Char) : List Char × List Char :=
  match s with
  | [] => ([], [])
  | c :: rest =>
    if c = dq ∨ c = q1 then
      let seg := quoteScanSeg c rest
      let after := quoteScanRest c rest
      let res := substringQuote (some c) seg
      let after2 := dropOneStop c after
      let after3 := after2.dropWhile (fun x => x ≠ stop)
      (res, dropOneStop stop after3)
    else
      let seg := s.takeWhile (fun x => x ≠ stop)
      let rest1 := s.dropWhile (fun x => x ≠ stop)
      (substringQuote none seg, dropOneStop stop rest1)

/-- `ap_getword` (httpd utility used throughout `parse_element`): the word
up to the first `stop`, then ALL consecutive `stop` characters are
skipped.  No escape processing. -/
def apGetword (s : List Char) (stop : Char) : List Char × List Char :=
  (s.takeWhile (fun c => c ≠ stop),
   (s.dropWhile (fun c => c ≠ stop)).dropWhile (fun c => c = stop))

/-- `apr_cstr_tokenize` with a single separator character: skips leading
separators, returns the next token and the remainder (one separator
consumed when present), or `none` when no token remains. -/
def cstrTokenize (sep : Char) (s : List Char) : Option (List Char × List Char) :=
  let s1 := s.dropWhile (fun c => c = sep)
  match s1 with
  | [] => none
  | _ =>
    let tok := s1.takeWhile (fun c => c ≠ sep)
    let rest := s1.dropWhile (fun c => c ≠ sep)
    some (tok, rest.drop 1)

/-- The `while ((rpn = apr_cstr_tokenize(",", &rpns)))` loop of the CDEF
branch, and the `&`-splitting loop of `parse_query`: all (non-empty)
tokens of the input. -/
def tokensSplit (sep : Char) (s : List Char) : List (List Char) :=
  go [] s
where
  go : List Char → List Char → List (List Char)
  | acc, [] => if acc = [] then [] else [acc.reverse]
  | acc, c :: rest =>
    if c = sep then
      if acc = [] then go [] rest else acc.reverse :: go [] rest
    else go (c :: acc) rest

/-- Hexadecimal digit test (`apr_isxdigit`). -/
def isHexDigit (c : Char) : Bool :=
  decide (('0' ≤ c ∧ c ≤ '9') ∨ ('a' ≤ c ∧ c ≤ 'f') ∨ ('A' ≤ c ∧ c ≤ 'F'))

/-- Hexadecimal digit value. -/
def hexVal (c : Char) : Nat :=
  if '0' ≤ c ∧ c ≤ '9' then c.toNat - '0'.toNat
  else if 'a' ≤ c ∧ c ≤ 'f' then c.toNat - 'a'.toNat + 10
  else c.toNat - 'A'.toNat + 10

/-- `apr_punescape_url(p, url, NULL, NULL, 0)`: percent-decodes `%xy`
(two hex digits required, else the call fails and `parse_query` rejects
the request); `+` is NOT decoded (the plus flag is 0). -/
def unescapeUrl : List Char → Option (List Char)
  | [] => some []
  | c :: rest =>
    if c = '%' then
      match rest with
      | a :: b :: rest2 =>
        if isHexDigit a ∧ isHexDigit b then
          (unescapeUrl rest2).map (Char.ofNat (16 * hexVal a + hexVal b) :: ·)
        else none
      | _ => none
    else (unescapeUrl rest).map (c :: ·)

/-! ### Data model (rrd_cmd_t, rrd_opt_t, rrd_cmds_t; lines 128-276)

`rrd_cmd_t` is a struct with a type tag, a multiplicity `num`, a
backing-DEF pointer `def`, and a union of per-kind payloads.  The embedding
replaces the tag+union with one inductive (`Pay`), and the `def` pointer
with an index into the command sequence (`dref`).  Fields that can hold a
NULL `char *` observable by the generator (`vname`/`colour` produced by
`apr_cstr_tokenize`, the never-assigned `e.legend`) are `Option String`;
`apr_psprintf` renders a NULL `%s` argument as "(null)" (see `cstr`). -/

/-- One RPN token of a CDEF (`rrd_rpn_t`): the token text and the backing
DEF (`rp->def`) annotated on at most the first resolved token. -/
structure Rpn where
  rpn : String
  rdef : Option Nat
  deriving DecidableEq, Repr

/-- The per-kind payload union of `rrd_cmd_t`.  For `pcomment`/`ptextalign`
the `legend` field models `e.legend`, which `parse_element` never assigns
(the parsed legend is written through the aliasing union member `a.legend`,
which occupies the storage of `e.elegend` and is immediately overwritten by
the `expr1` assignment); it is therefore `none` for parsed elements. -/
inductive Pay where
  | pdef (vname path dsname cf : String) (requests : List String)
  | pvdef (vname dsname rpn : String) (ref : Option Nat)
  | pcdef (vname : String) (rpns : List Rpn) (rpn : String) (ref : Option Nat)
  | pline (line : String) (vname colour : Option String) (legend args : String)
  | parea (vname colour : Option String) (legend args : String)
  | ptick (vname colour : Option String) (fraction legend args : String)
  | pshift (vname shiftBy : String)
  | pprint (vname format : String)
  | pgprint (vname format : String)
  | pvrule (val colour : Option String) (legend args : String)
  | phrule (val colour : Option String) (legend args : String)
  | pcomment (element : String) (legend : Option String)
  | ptextalign (element : String) (legend : Option String)
  deriving DecidableEq, Repr

/-- A command (`rrd_cmd_t`): multiplicity, backing-DEF index, payload. -/
structure Cmd where
  num : Nat
  dref : Option Nat
  pay : Pay
  deriving DecidableEq, Repr

/-- A rendering option (`rrd_opt_t`); the `eval` expression field is NULL
in the request path and dropped. -/
structure Opt where
  key : String
  val : Option String
  deriving DecidableEq, Repr

/-- An error surfaced to the HTTP layer: status code plus the message
passed to `log_message`. -/
structure Err where
  status : Nat
  msg : String
  deriving DecidableEq, Repr

def HTTP_BAD_REQUEST : Nat := 400

def HTTP_INTERNAL_SERVER_ERROR : Nat := 500

/-- `apr_psprintf` renders a NULL `%s` argument as "(null)". -/
def cstr : Option String → String
  | some s => s
  | none => "(null)"

/-! ### parse_element (lines 597-781) -/

/-- Mirrors `cmd->X.vname = apr_cstr_tokenize("#", &vncol); cmd->X.colour
= vncol;`: on success the token becomes the vname and the remainder the
colour; on failure (`NULL` return) the vname is NULL and `vncol` is left
unchanged as the colour. -/
def splitVnameColour (vncol : List Char) : Option String × Option String :=
  match cstrTokenize '#' vncol with
  | some (t, r) => (some (String.mk t), some (String.mk r))
  | none => (none, some (String.mk vncol))

/-- Build a freshly parsed command (num and def are zero-initialised by
`apr_array_push`). -/
def mkCmd (p : Pay) : Cmd := { num := 0, dref := none, pay := p }

/-- Does `s` start with the first `n` characters that `strncmp(element,
lit, n)` compares?  (`lit` is passed already truncated to `n`.) -/
def hasPrefixStr (s : List Char) (lit : String) : Bool :=
  s.take lit.length = lit.data

/-- `parse_element` in the request path (`expr1 = expr2 = NULL`): dispatch
on the keyword prefix and split the element into its typed fields.
Returns `none` ("not recognised") for an unknown prefix.

Note the COMMENT/TEXTALIGN branches: the C stores the quote-parsed legend
through `cmd->a.legend`, whose union offset is that of `e.elegend`; the
following `cmd->e.elegend = expr1` overwrites it with NULL, and `e.legend`
is never assigned, so the parsed legend is dropped (`legend := none`)
even though `getword_quote` is called. -/
def parseElement (element : String) : Option Cmd :=
  let l := element.data
  if hasPrefixStr l "AREA:" then
    let l := l.drop 5
    let (vncol, r1) := apGetword l ':'
    let (legend, r2) := getwordQuote r1 ':'
    let (vname, colour) := splitVnameColour vncol
    some (mkCmd (.parea vname colour (String.mk legend) (String.mk r2)))
  else if hasPrefixStr l "CDEF:" then
    let l := l.drop 5
    let (vname, r1) := apGetword l '='
    let rpns := (tokensSplit ',' r1).map fun t => Rpn.mk (String.mk t) none
    some (mkCmd (.pcdef (String.mk vname) rpns (String.mk r1) none))
  else if hasPrefixStr l "COMMENT" then
    let (word, r1) := apGetword l ':'
    let (_legend, _r2) := getwordQuote r1 ':'
    some (mkCmd (.pcomment (String.mk word) none))
  else if hasPrefixStr l "DEF:" then
    let l := l.drop 4
    let (vname, r1) := apGetword l '='
    let (path, r2) := apGetword r1 ':'
    let (dsname, r3) := apGetword r2 ':'
    some (mkCmd (.pdef (String.mk vname) (String.mk path) (String.mk dsname)
      (String.mk r3) []))
  else if hasPrefixStr l "GPRINT:" then
    let l := l.drop 7
    let (vname, r1) := apGetword l ':'
    some (mkCmd (.pgprint (String.mk vname) (String.mk r1)))
  else if hasPrefixStr l "HRULE:" then
    let l := l.drop 6
    let (vncol, r1) := apGetword l ':'
    let (legend, r2) := getwordQuote r1 ':'
    let (val, colour) := splitVnameColour vncol
    some (mkCmd (.phrule val colour (String.mk legend) (String.mk r2)))
  else if hasPrefixStr l "LINE" then
    let (line, r0) := apGetword l ':'
    let (vncol, r1) := apGetword r0 ':'
    let (legend, r2) := getwordQuote r1 ':'
    let (vname, colour) := splitVnameColour vncol
    some (mkCmd (.pline (String.mk line) vname colour (String.mk legend)
      (String.mk r2)))
  else if hasPrefixStr l "PRINT:" then
    let l := l.drop 6
    let (vname, r1) := apGetword l ':'
    some (mkCmd (.pprint (String.mk vname) (String.mk r1)))
  else if hasPrefixStr l "SHIFT:" then
    let l := l.drop 6
    let (vname, r1) := apGetword l ':'
    some (mkCmd (.pshift (String.mk vname) (String.mk r1)))
  else if hasPrefixStr l "TICK:" then
    let l := l.drop 5
    let (vncol, r1) := apGetword l ':'
    let (fraction, r2) := apGetword r1 ':'
    let (legend, r3) := getwordQuote r2 ':'
    let (vname, colour) := splitVnameColour vncol
    some (mkCmd (.ptick vname colour (String.mk fraction) (String.mk legend)
      (String.mk r3)))
  else if hasPrefixStr l "TEXTALIGN:" then
    let (word, r1) := apGetword l ':'
    let (_legend, _r2) := getwordQuote r1 ':'
    some (mkCmd (.ptextalign (String.mk word) none))
  else if hasPrefixStr l "VDEF:" then
    let l := l.drop 5
    let (vname, r1) := apGetword l '='
    let (dsname, r2) := apGetword r1 ','
    some (mkCmd (.pvdef (String.mk vname) (String.mk dsname) (String.mk r2) none))
  else if hasPrefixStr l "VRULE:" then
    let l := l.drop 6
    let (vncol, r1) := apGetword l ':'
    let (legend, r2) := getwordQuote r1 ':'
    let (val, colour) := splitVnameColour vncol
    some (mkCmd (.pvrule val colour (String.mk legend) (String.mk r2)))
  else none

/-! ### parse_option (lines 783-1121) -/

/-- The option keys accepted when a value is supplied (the `if (val)`
branch of `parse_option`). -/
def withValueKeys : List String :=
  ["border", "color", "font", "font-render-mode", "font-smoothing-threshold",
   "graph-render-mode", "height", "left-axis-format", "lower-limit",
   "right-axis", "right-axis-label", "right-axis-format", "step", "tabwidth",
   "title", "units-exponent", "units-length", "vertical-label", "width",
   "watermark", "x-grid", "y-grid", "zoom"]

/-- The option keys accepted when no value is supplied (the `else` branch
of `parse_option`, reached only with a NULL `val`).  Note the source lists
`upper-limit` here. -/
def noValueKeys : List String :=
  ["alt-y-grid", "alt-autoscale", "alt-autoscale-max", "full-size-mode",
   "force-rules-legend", "logarithmic", "lazy", "no-legend", "no-gridfit",
   "only-graph", "pango-markup", "rigid", "slope-mode", "upper-limit",
   "use-nan-for-all-missing-data"]

/-- `parse_option`: the `switch(key[0])`/`strcmp` chains amount to exact
membership in the fixed per-branch key table.  A non-NULL `val` (even the
empty string) selects the with-value branch. -/
def parseOption (key : String) (val : Option String) : Option Opt :=
  match val with
  | some v => if key ∈ withValueKeys then some ⟨key, some v⟩ else none
  | none => if key ∈ noValueKeys then some ⟨key, none⟩ else none

/-! ### parse_query (lines 1123-1190) -/

/-- Handle one `&`-separated query fragment: URL-unescape, try
`parse_element`, then split on `=` and try `parse_option`; otherwise the
whole request fails with HTTP_BAD_REQUEST.  `val` is the remainder after
the first `=` — a non-NULL empty string when the fragment has no `=`.
When the fragment consists only of `=` characters `apr_cstr_tokenize`
returns NULL and the C passes a NULL key to `parse_option` (undefined
behaviour); this is modelled as the not-recognised error and is
unreachable in the claims below. -/
def parseFragment (acc : List Cmd × List Opt) (arg : List Char) :
    Except Err (List Cmd × List Opt) :=
  match unescapeUrl arg with
  | none =>
    .error ⟨HTTP_BAD_REQUEST,
      "The following element could not be unescaped: " ++ String.mk arg⟩
  | some el =>
    match parseElement (String.mk el) with
    | some cmd => .ok (acc.1 ++ [cmd], acc.2)
    | none =>
      match cstrTokenize '=' el with
      | some (k, v) =>
        match parseOption (String.mk k) (some (String.mk v)) with
        | some o => .ok (acc.1, acc.2 ++ [o])
        | none =>
          .error ⟨HTTP_BAD_REQUEST, "Query was not recognised: " ++ String.mk arg⟩
      | none =>
        .error ⟨HTTP_BAD_REQUEST, "Query was not recognised: " ++ String.mk arg⟩

/-- The fragment loop of `parse_query`. -/
def parseFragments (acc : List Cmd × List Opt) :
    List (List Char) → Except Err (List Cmd × List Opt)
  | [] => .ok acc
  | arg :: rest =>
    match parseFragment acc arg with
    | .error e => .error e
    | .ok acc2 => parseFragments acc2 rest

/-- `parse_query`: base (administrator) elements and options are prepended
(`apr_array_cat`), then each `&`-separated fragment of the query string is
parsed in order. -/
def parseQuery (baseCmds : List Cmd) (baseOpts : List Opt) (query : String) :
    Except Err (List Cmd × List Opt) :=
  parseFragments (baseCmds, baseOpts) (tokensSplit '&' query.data)

/-! ### Resolver (resolve_rrds and helpers, lines 1192-1570)

The name table `cmds->names` is an `apr_hash_t` mapping a vname to a
pointer at the command that defines it; `apr_hash_set` overwrites, so later
definitions shadow earlier ones.  The embedding stores the index of the
command in the (already resolved) prefix of the sequence.

`resolve_def`'s filesystem walk (`ap_dir_fnmatch` plus the per-file
subrequest permission check) is the external source matcher: it is passed
in as `matcher : String → List String`, returning the ordered list of
authorized matched filenames for a path template.  The
`RRDGraphEnv` aggregation loop only writes to `r->subprocess_env` (used by
dynamic expressions, which are out of scope) and is dropped. -/

/-- The name table. -/
def NT : Type := String → Option Nat

def ntEmpty : NT := fun _ => none

/-- `apr_hash_set(cmds->names, vname, cmd)`. -/
def ntSet (nt : NT) (k : String) (v : Nat) : NT :=
  fun x => if x = k then some v else nt x

/-- `apr_hash_get` with a possibly NULL key.  A NULL key is undefined
behaviour in C (`strlen(NULL)`); it is modelled as a failed lookup and is
unreachable in the claims. -/
def ntGet (nt : NT) (k : Option String) : Option Nat :=
  match k with
  | some s => nt s
  | none => none

/-- `cmd->num` of the command at an index (`ref->num`); total model of the
pointer dereference. -/
def numAt (done : List Cmd) (i : Nat) : Nat :=
  ((done[i]?).map (·.num)).getD 0

/-- `cmd->def` of the command at an index (`ref->def`). -/
def drefAt (done : List Cmd) (i : Nat) : Option Nat :=
  (done[i]?).bind (·.dref)

/-- The token loop of `resolve_cdef` (lines 1353-1365): for each RPN token,
while `cmd->c.ref` is still NULL, look the token up; on the first hit set
`cmd->c.ref` and annotate `rp->def = cmd->def = ref->def`.  Returns the
annotated token list, the final `c.ref` and the final `cmd->def`. -/
def cdefScan (done : List Cmd) (nt : NT) :
    List Rpn → Option Nat → Option Nat → (List Rpn × Option Nat × Option Nat)
  | [], ref, dr => ([], ref, dr)
  | rp :: rest, ref, dr =>
    match ref with
    | some r =>
      let (rs, r2, d2) := cdefScan done nt rest (some r) dr
      (rp :: rs, r2, d2)
    | none =>
      match nt rp.rpn with
      | some rIdx =>
        let dnew := drefAt done rIdx
        let (rs, r2, d2) := cdefScan done nt rest (some rIdx) dnew
        ({ rp with rdef := dnew } :: rs, r2, d2)
      | none =>
        let (rs, r2, d2) := cdefScan done nt rest none dr
        (rp :: rs, r2, d2)

/-- Resolve one command against the already-resolved prefix `done` and the
name table, returning the updated command and name table.  Mirrors the
per-type `resolve_*` functions dispatched by `resolve_rrds`. -/
def resolveOne (matcher : String → List String) (done : List Cmd) (nt : NT)
    (c : Cmd) : Except Err (Cmd × NT) :=
  match c.pay with
  | .pdef v path ds cf _reqs =>
    let reqs := matcher path
    .ok ({ num := reqs.length, dref := some done.length,
           pay := .pdef v path ds cf reqs },
         ntSet nt v done.length)
  | .pvdef v ds rpn _ =>
    match nt ds with
    | some rIdx =>
      .ok ({ num := numAt done rIdx, dref := drefAt done rIdx,
             pay := .pvdef v ds rpn (some rIdx) },
           ntSet nt v done.length)
    | none =>
      .error ⟨HTTP_BAD_REQUEST,
        "While parsing VDEF " ++ sq ++ v ++ sq ++ ": " ++ sq ++ ds ++ sq
          ++ " was not found"⟩
  | .pcdef v rpns rpn ref =>
    let (rpns2, ref2, dr2) := cdefScan done nt rpns ref c.dref
    let num2 := match ref2 with
                | some rIdx => numAt done rIdx
                | none => c.num
    .ok ({ num := num2, dref := dr2, pay := .pcdef v rpns2 rpn ref2 },
         ntSet nt v done.length)
  | .pline _ v _ _ _ =>
    match ntGet nt v with
    | some rIdx => .ok ({ c with dref := drefAt done rIdx }, nt)
    | none =>
      .error ⟨HTTP_BAD_REQUEST,
        "While parsing LINE: " ++ sq ++ cstr v ++ sq ++ " was not found"⟩
  | .parea v _ _ _ =>
    match ntGet nt v with
    | some rIdx => .ok ({ c with dref := drefAt done rIdx }, nt)
    | none =>
      .error ⟨HTTP_BAD_REQUEST,
        "While parsing AREA: " ++ sq ++ cstr v ++ sq ++ " was not found"⟩
  | .ptick v _ _ _ _ =>
    match ntGet nt v with
    | some rIdx => .ok ({ c with dref := drefAt done rIdx }, nt)
    | none =>
      .error ⟨HTTP_BAD_REQUEST,
        "While parsing TICK: " ++ sq ++ cstr v ++ sq ++ " was not found"⟩
  | .pshift v _ =>
    match nt v with
    | some rIdx => .ok ({ c with dref := drefAt done rIdx }, nt)
    | none =>
      .error ⟨HTTP_BAD_REQUEST,
        "While parsing SHIFT: " ++ sq ++ v ++ sq ++ " was not found"⟩
  | .pprint v _ =>
    match nt v with
    | some rIdx => .ok ({ c with dref := drefAt done rIdx }, nt)
    | none =>
      .error ⟨HTTP_BAD_REQUEST,
        "While parsing PRINT: " ++ sq ++ v ++ sq ++ " was not found"⟩
  | .pgprint v _ =>
    match nt v with
    | some rIdx => .ok ({ c with dref := drefAt done rIdx }, nt)
    | none =>
      .error ⟨HTTP_BAD_REQUEST,
        "While parsing GPRINT: " ++ sq ++ v ++ sq ++ " was not found"⟩
  | .pvrule _ _ _ _ => .ok (c, nt)
  | .phrule _ _ _ _ => .ok (c, nt)
  | .pcomment _ _ => .ok (c, nt)
  | .ptextalign _ _ => .ok (c, nt)

/-- The command loop of `resolve_rrds`: single forward pass, first error
aborts. -/
def resolveFrom (matcher : String → List String) :
    List Cmd → NT → List Cmd → Except Err (List Cmd × NT)
  | done, nt, [] => .ok (done, nt)
  | done, nt, c :: rest =>
    match resolveOne matcher done nt c with
    | .error e => .error e
    | .ok (c2, nt2) => resolveFrom matcher (done ++ [c2]) nt2 rest

/-- `resolve_rrds`. -/
def resolveRrds (matcher : String → List String) (cmds : List Cmd) :
    Except Err (List Cmd × NT) :=
  resolveFrom matcher [] ntEmpty cmds

/-- The resolved command list (projection used for concrete statements;
the name table component is a function and has no decidable equality). -/
def resolveList (matcher : String → List String) (cmds : List Cmd) :
    Except Err (List Cmd) :=
  (resolveRrds matcher cmds).map (·.1)

/-! ### Generator (generate_args and helpers, lines 1572-2425) -/

/-- `cmd->X.colour ? "#" : ""` followed by the colour itself. -/
def hashColour : Option String → String
  | some c => "#" ++ c
  | none => ""

/-- `cmd->X.args[0] ? ":" : ""` followed by the trailing args. -/
def argsSuffix (args : String) : String :=
  if args = "" then "" else ":" ++ args

/-- `cmd->def->num`, total model of the dereference (the index is always
in range for resolved commands). -/
def defNumAt (all : List Cmd) (d : Nat) : Nat := numAt all d

/-- Fixed rejection message for DEF daemon injection (line 2226). -/
def daemonErrMsg : String :=
  "DEF elements must not contain a " ++ sq ++ "daemon" ++ sq ++ " parameter"

/-- The summary aggregation line of a wildcard DEF (lines 2245-2263):
`CDEF:<vname>=<vname>w0,<vname>w1,+,<vname>w2,+,...`. -/
def defAggLine (vname : String) (n : Nat) : String :=
  "CDEF:" ++ vname ++ "=" ++ String.join ((List.range n).map fun j =>
    (if j = 0 then "" else ",") ++ vname ++ "w" ++ toString j
      ++ (if j = 0 then "" else ",+"))

/-- `generate_def` (lines 2219-2268).  The `:daemon=` substring check on
the consolidation function runs first and rejects the request; otherwise
one `DEF:` line is emitted per matched file (suffixed `w<j>` when there is
more than one), with the filename colon-escaped, plus the aggregation
CDEF bound to the unsuffixed name in the wildcard case. -/
def generateDef (vname dsname cf : String) (requests : List String) :
    Except Err (List String) :=
  if (":daemon=".data) <:+: cf.data then
    .error ⟨HTTP_BAD_REQUEST, daemonErrMsg⟩
  else if requests.length = 0 then .ok []
  else if requests.length = 1 then
    .ok ["DEF:" ++ vname ++ "=" ++ pescapeColonS (requests.headD "") ++ ":"
      ++ dsname ++ ":" ++ cf]
  else
    .ok ((requests.enum.map fun (j, f) =>
      "DEF:" ++ vname ++ "w" ++ toString j ++ "=" ++ pescapeColonS f ++ ":"
        ++ dsname ++ ":" ++ cf) ++ [defAggLine vname requests.length])

/-- One rewritten RPN token of a wildcard CDEF line (lines 2189-2194 and
2206-2211): suffixed only when the token was annotated with a backing DEF
of multiplicity at least 2. -/
def cdefToken (all : List Cmd) (j : Nat) (rp : Rpn) : String :=
  match rp.rdef with
  | none => rp.rpn
  | some rd => if numAt all rd < 2 then rp.rpn else rp.rpn ++ "w" ++ toString j

/-- `generate_cdef` (lines 2150-2217).  The 0/1-result branches test
`cmd->def->num`; the wildcard loop runs `cmd->num` times. -/
def generateCdef (all : List Cmd) (c : Cmd) (v rpn : String) (rpns : List Rpn) :
    Except Err (List String) :=
  match c.dref with
  | none =>
    .error ⟨HTTP_BAD_REQUEST,
      "CDEF element " ++ sq ++ v ++ sq ++ " referred to no existing definitions"⟩
  | some d =>
    let n := defNumAt all d
    if n = 0 then .ok []
    else if n = 1 then .ok ["CDEF:" ++ v ++ "=" ++ rpn]
    else
      .ok ((List.range c.num).map fun j =>
        "CDEF:" ++ v ++ "w" ++ toString j ++ "="
          ++ String.intercalate "," (rpns.map (cdefToken all j)))

/-- `generate_vdef` (lines 2112-2148). -/
def generateVdef (all : List Cmd) (c : Cmd) (v ds rpn : String) :
    Except Err (List String) :=
  match c.dref with
  | none =>
    .error ⟨HTTP_BAD_REQUEST,
      "VDEF element referred to " ++ sq ++ v ++ sq ++ ", which does not exist"⟩
  | some d =>
    let n := defNumAt all d
    if n = 0 then .ok []
    else if n = 1 then .ok ["VDEF:" ++ v ++ "=" ++ ds ++ "," ++ rpn]
    else
      .ok ((List.range n).map fun j =>
        "VDEF:" ++ v ++ "w" ++ toString j ++ "=" ++ ds ++ "w" ++ toString j
          ++ "," ++ rpn)

/-- `generate_print` (lines 1636-1672). -/
def generatePrint (all : List Cmd) (c : Cmd) (v fmt : String) :
    Except Err (List String) :=
  match c.dref with
  | none =>
    .error ⟨HTTP_BAD_REQUEST,
      "PRINT element referred to " ++ sq ++ v ++ sq ++ ", which does not exist"⟩
  | some d =>
    let n := defNumAt all d
    if n = 0 then .ok []
    else if n = 1 then .ok ["PRINT:" ++ v ++ ":" ++ fmt]
    else
      .ok ((List.range n).map fun j =>
        "PRINT:" ++ v ++ "w" ++ toString j ++ ":" ++ fmt)

/-- `generate_gprint` (lines 1598-1634). -/
def generateGprint (all : List Cmd) (c : Cmd) (v fmt : String) :
    Except Err (List String) :=
  match c.dref with
  | none =>
    .error ⟨HTTP_BAD_REQUEST,
      "GPRINT element referred to " ++ sq ++ v ++ sq ++ ", which does not exist"⟩
  | some d =>
    let n := defNumAt all d
    if n = 0 then .ok []
    else if n = 1 then .ok ["GPRINT:" ++ v ++ ":" ++ fmt]
    else
      .ok ((List.range n).map fun j =>
        "GPRINT:" ++ v ++ "w" ++ toString j ++ ":" ++ fmt)

/-- `generate_shift` (lines 1674-1710). -/
def generateShift (all : List Cmd) (c : Cmd) (v sh : String) :
    Except Err (List String) :=
  match c.dref with
  | none =>
    .error ⟨HTTP_BAD_REQUEST,
      "SHIFT element referred to " ++ sq ++ v ++ sq ++ ", which does not exist"⟩
  | some d =>
    let n := defNumAt all d
    if n = 0 then .ok []
    else if n = 1 then .ok ["SHIFT:" ++ v ++ ":" ++ sh]
    else
      .ok ((List.range n).map fun j =>
        "SHIFT:" ++ v ++ "w" ++ toString j ++ ":" ++ sh)

/-- `generate_hrule` (lines 1712-1739); legends are emitted verbatim in
the request path (the colon-escape applies only to evaluated legend
expressions, which are NULL here). -/
def generateHrule (val colour : Option String) (legend args : String) :
    List String :=
  ["HRULE:" ++ cstr val ++ hashColour colour ++ ":" ++ legend
    ++ argsSuffix args]

/-- `generate_vrule` (lines 1741-1768). -/
def generateVrule (val colour : Option String) (legend args : String) :
    List String :=
  ["VRULE:" ++ cstr val ++ hashColour colour ++ ":" ++ legend
    ++ argsSuffix args]

/-- `generate_element` (lines 1572-1596), used for COMMENT and TEXTALIGN:
the stored word, a colon, and `e.legend` (NULL — printed "(null)" — for
parsed elements, since the parsed legend was lost to the union overlap). -/
def generateElement (element : String) (legend : Option String) : List String :=
  [element ++ ":" ++ cstr legend]

/-- The absorption scan shared by `generate_line`, `generate_area` and
`generate_tick` (`for (k = *i + 1; ...)`): walk the commands after the
owner; while they share the owner's `def` and are PRINT/GPRINT, emit a
per-source `w<j>` line for them; at the first command that breaks the run
record `skip = k - *i - 1` (the break offset).  When the scan runs off the
end of the sequence no break offset is recorded (`skip` keeps its previous
value — this is the source of the double-emission bug shown below). -/
def absorbScan (dr : Option Nat) (j : Nat) : List Cmd → (List String × Option Nat)
  | [] => ([], none)
  | p :: rest =>
    if p.dref = dr then
      match p.pay with
      | .pprint v fmt =>
        let (ls, brk) := absorbScan dr j rest
        (("PRINT:" ++ v ++ "w" ++ toString j ++ ":" ++ fmt) :: ls,
         brk.map (· + 1))
      | .pgprint v fmt =>
        let (ls, brk) := absorbScan dr j rest
        (("GPRINT:" ++ v ++ "w" ++ toString j ++ ":" ++ fmt) :: ls,
         brk.map (· + 1))
      | _ => ([], some 0)
    else ([], some 0)

/-- The final value of the C `skip` variable after the per-source loop:
initialised to 0, overwritten by each scan that breaks early (every scan
breaks at the same offset, so the fold just keeps the last recorded
offset). -/
def absorbSkip (dr : Option Nat) (n : Nat) (suffix : List Cmd) : Nat :=
  (List.range n).foldl
    (fun sk j => match (absorbScan dr j suffix).2 with
      | some m => m
      | none => sk) 0

/-- `generate_line` (lines 1999-2110): returns the emitted lines and the
`skip` amount added to the outer loop index. -/
def generateLine (all : List Cmd) (i : Nat) (c : Cmd) (ln : String)
    (v colour : Option String) (legend args : String) :
    Except Err (List String × Nat) :=
  match c.dref with
  | none =>
    .error ⟨HTTP_BAD_REQUEST,
      "LINE element referred to " ++ sq ++ cstr v ++ sq
        ++ ", which does not exist"⟩
  | some d =>
    let n := defNumAt all d
    if n = 0 then .ok ([], 0)
    else if n = 1 then
      .ok ([ln ++ ":" ++ cstr v ++ hashColour colour ++ ":" ++ legend
        ++ argsSuffix args], 0)
    else
      let suffix := all.drop (i + 1)
      .ok ((List.range n).flatMap fun j =>
        (ln ++ ":" ++ cstr v ++ "w" ++ toString j ++ hashColour colour ++ ":"
          ++ legend ++ argsSuffix args) :: (absorbScan c.dref j suffix).1,
        absorbSkip c.dref n suffix)

/-- `generate_area` (lines 1885-1997). -/
def generateArea (all : List Cmd) (i : Nat) (c : Cmd)
    (v colour : Option String) (legend args : String) :
    Except Err (List String × Nat) :=
  match c.dref with
  | none =>
    .error ⟨HTTP_BAD_REQUEST,
      "AREA element referred to " ++ sq ++ cstr v ++ sq
        ++ ", which does not exist"⟩
  | some d =>
    let n := defNumAt all d
    if n = 0 then .ok ([], 0)
    else if n = 1 then
      .ok (["AREA:" ++ cstr v ++ hashColour colour ++ ":" ++ legend
        ++ argsSuffix args], 0)
    else
      let suffix := all.drop (i + 1)
      .ok ((List.range n).flatMap fun j =>
        ("AREA:" ++ cstr v ++ "w" ++ toString j ++ hashColour colour ++ ":"
          ++ legend ++ argsSuffix args) :: (absorbScan c.dref j suffix).1,
        absorbSkip c.dref n suffix)

/-- `generate_tick` (lines 1770-1883). -/
def generateTick (all : List Cmd) (i : Nat) (c : Cmd)
    (v colour : Option String) (fraction legend args : String) :
    Except Err (List String × Nat) :=
  match c.dref with
  | none =>
    .error ⟨HTTP_BAD_REQUEST,
      "TICK element referred to " ++ sq ++ cstr v ++ sq
        ++ ", which does not exist"⟩
  | some d =>
    let n := defNumAt all d
    if n = 0 then .ok ([], 0)
    else if n = 1 then
      .ok (["TICK:" ++ cstr v ++ hashColour colour ++ ":" ++ fraction ++ ":"
        ++ legend ++ argsSuffix args], 0)
    else
      let suffix := all.drop (i + 1)
      .ok ((List.range n).flatMap fun j =>
        ("TICK:" ++ cstr v ++ "w" ++ toString j ++ hashColour colour ++ ":"
          ++ fraction ++ ":" ++ legend ++ argsSuffix args)
          :: (absorbScan c.dref j suffix).1,
        absorbSkip c.dref n suffix)

/-- The element loop of `generate_args` (lines 2345-2417): dispatch on the
command type; LINE/AREA/TICK advance the loop index by their `skip`.  The
fuel argument bounds the recursion (one unit per loop step; `all.length`
always suffices since the index strictly increases). -/
def genFrom (all : List Cmd) : Nat → Nat → Except Err (List String)
  | 0, _ => .ok []
  | fuel + 1, i =>
    match all[i]? with
    | none => .ok []
    | some c =>
      match c.pay with
      | .pdef v _path ds cf reqs =>
        match generateDef v ds cf reqs with
        | .error e => .error e
        | .ok ls =>
          match genFrom all fuel (i + 1) with
          | .error e => .error e
          | .ok rest => .ok (ls ++ rest)
      | .pcdef v rpns rpn _ =>
        match generateCdef all c v rpn rpns with
        | .error e => .error e
        | .ok ls =>
          match genFrom all fuel (i + 1) with
          | .error e => .error e
          | .ok rest => .ok (ls ++ rest)
      | .pvdef v ds rpn _ =>
        match generateVdef all c v ds rpn with
        | .error e => .error e
        | .ok ls =>
          match genFrom all fuel (i + 1) with
          | .error e => .error e
          | .ok rest => .ok (ls ++ rest)
      | .pline ln v colour legend args =>
        match generateLine all i c ln v colour legend args with
        | .error e => .error e
        | .ok (ls, skp) =>
          match genFrom all fuel (i + skp + 1) with
          | .error e => .error e
          | .ok rest => .ok (ls ++ rest)
      | .parea v colour legend args =>
        match generateArea all i c v colour legend args with
        | .error e => .error e
        | .ok (ls, skp) =>
          match genFrom all fuel (i + skp + 1) with
          | .error e => .error e
          | .ok rest => .ok (ls ++ rest)
      | .ptick v colour fraction legend args =>
        match generateTick all i c v colour fraction legend args with
        | .error e => .error e
        | .ok (ls, skp) =>
          match genFrom all fuel (i + skp + 1) with
          | .error e => .error e
          | .ok rest => .ok (ls ++ rest)
      | .pshift v sh =>
        match generateShift all c v sh with
        | .error e => .error e
        | .ok ls =>
          match genFrom all fuel (i + 1) with
          | .error e => .error e
          | .ok rest => .ok (ls ++ rest)
      | .pprint v fmt =>
        match generatePrint all c v fmt with
        | .error e => .error e
        | .ok ls =>
          match genFrom all fuel (i + 1) with
          | .error e => .error e
          | .ok rest => .ok (ls ++ rest)
      | .pgprint v fmt =>
        match generateGprint all c v fmt with
        | .error e => .error e
        | .ok ls =>
          match genFrom all fuel (i + 1) with
          | .error e => .error e
          | .ok rest => .ok (ls ++ rest)
      | .phrule val colour legend args =>
        match genFrom all fuel (i + 1) with
        | .error e => .error e
        | .ok rest => .ok (generateHrule val colour legend args ++ rest)
      | .pvrule val colour legend args =>
        match genFrom all fuel (i + 1) with
        | .error e => .error e
        | .ok rest => .ok (generateVrule val colour legend args ++ rest)
      | .pcomment el legend =>
        match genFrom all fuel (i + 1) with
        | .error e => .error e
        | .ok rest => .ok (generateElement el legend ++ rest)
      | .ptextalign el legend =>
        match genFrom all fuel (i + 1) with
        | .error e => .error e
        | .ok rest => .ok (generateElement el legend ++ rest)

/-- The element lines of `generate_args`. -/
def generateCmds (all : List Cmd) : Except Err (List String) :=
  genFrom all all.length 0

/-- The option lines of `generate_args` (lines 2320-2342): `--key` then
the value when present (expression evaluation is NULL in the request
path). -/
def generateOpts (opts : List Opt) : List String :=
  opts.flatMap fun o =>
    ("--" ++ o.key) :: (match o.val with | some v => [v] | none => [])

/-- `generate_args` (lines 2270-2425): the fixed four-element prefix, the
options, then the per-command element lines. -/
def generateArgs (format : String) (opts : List Opt) (all : List Cmd) :
    Except Err (List String) :=
  match generateCmds all with
  | .error e => .error e
  | .ok els =>
    .ok (["rrdgraph", "-", "--imgformat", format] ++ generateOpts opts ++ els)

/-! ### Pipeline composition and specification-side helper definitions -/

/-- The pipeline of `get_rrdgraph` after parsing: resolve, then generate
the element lines (the first error aborts). -/
def resolveAndGenerate (matcher : String → List String) (cmds : List Cmd) :
    Except Err (List String) :=
  match resolveRrds matcher cmds with
  | .error e => .error e
  | .ok (rs, _) => generateCmds rs

/-- The vname a command registers in the name table during resolution
(DEF, VDEF and CDEF register; nothing else does). -/
def defines (c : Cmd) : Option String :=
  match c.pay with
  | .pdef v _ _ _ _ => some v
  | .pvdef v _ _ _ => some v
  | .pcdef v _ _ _ => some v
  | _ => none

/-- The vname a command looks up during resolution (the CDEF token scan is
separate and never errors). -/
def refName (c : Cmd) : Option String :=
  match c.pay with
  | .pvdef _ ds _ _ => some ds
  | .pline _ v _ _ _ => v
  | .parea v _ _ _ => v
  | .ptick v _ _ _ _ => v
  | .pshift v _ => some v
  | .pprint v _ => some v
  | .pgprint v _ => some v
  | _ => none

/-- The cumulative effect of the resolver's name-table updates over a
command list starting at position `i` (specification of the `names` hash
after a resolved prefix). -/
def applyDefs (nt : NT) : List Cmd → Nat → NT
  | [], _ => nt
  | c :: rest, i =>
    applyDefs (match defines c with
               | some v => ntSet nt v i
               | none => nt) rest (i + 1)

/-- `cmds[j]?` holds a DEF defining `v`. -/
def DefinesAsDef (c : Cmd) (v : String) : Prop :=
  ∃ path ds cf reqs, c.pay = .pdef v path ds cf reqs

/-! ### Concrete instances used by counterexamples and failing inputs -/

/-- A source matcher returning two files for the wildcard template and
nothing otherwise (the external `ap_dir_fnmatch` walk is out of scope;
this is one possible authorized result). -/
def wildcardMatcher : String → List String :=
  fun p => if p = "*.rrd" then ["h1.rrd", "h2.rrd"] else []

/-- A wildcard DEF followed by a LINE on it and an absorbed PRINT that is
the LAST command of the sequence (failing input for the absorption
claim). -/
def absorbTailCmds : List Cmd :=
  [mkCmd (.pdef ("a") "*.rrd" "in" "AVERAGE" []),
   mkCmd (.pline "LINE1" (some "a") (some "00ff00") "L" ""),
   mkCmd (.pprint "a" "%lf")]

/-- Two wildcard DEFs and a CDEF whose second operand names the second
DEF (failing input for the CDEF-rewrite claim). -/
def cdefTwoDefsCmds : List Cmd :=
  [mkCmd (.pdef ("a") "*.rrd" "in" "AVERAGE" []),
   mkCmd (.pdef ("b") "*.rrd" "out" "AVERAGE" []),
   mkCmd (.pcdef ("x") [⟨"a", none⟩, ⟨"b", none⟩, ⟨"+", none⟩] "a,b,+" none)]

/-- A CDEF none of whose tokens resolves (pure-literal expression). -/
def pureLiteralCdefCmds : List Cmd :=
  [mkCmd (.pcdef ("x") [⟨"1", none⟩, ⟨"2", none⟩, ⟨"+", none⟩] "1,2,+" none)]

/-! ## Theorems

First the library of supporting lemmas, then one theorem per claim
(with witnesses / counterexamples as required). -/

theorem escapeColon_eq_flatMap (s : List Char) :
    escapeColon s = s.flatMap fun c => if c = ':' then ['\\', c] else [c] := by
  induction s with
  | nil => rfl
  | cons c rest ih =>
    by_cases h : c = ':' <;> simp [escapeColon, h, ih]

theorem escapeColon_of_no_colon (s : List Char) (h : ':' ∉ s) :
    escapeColon s = s := by
  induction s with
  | nil => rfl
  | cons c rest ih =>
    have hc : c ≠ ':' := fun hc => h (hc ▸ List.mem_cons_self c rest)
    have hr : ':' ∉ rest := fun hr => h (List.mem_cons_of_mem c hr)
    simp [escapeColon, hc, ih hr]

theorem colonFound_eq_false_of_no_colon (s : List Char) (h : ':' ∉ s) :
    colonFound s = false := by
  induction s with
  | nil => rfl
  | cons c rest ih =>
    have hc : c ≠ ':' := fun hc => h (hc ▸ List.mem_cons_self c rest)
    have hr : ':' ∉ rest := fun hr => h (List.mem_cons_of_mem c hr)
    simp [colonFound, hc, ih hr]

theorem colonFound_of_mem (s : List Char) (h : ':' ∈ s) :
    colonFound s = true := by
  induction s with
  | nil => cases h
  | cons c rest ih =>
    by_cases hc : c = ':'
    · simp [colonFound, hc]
    · have hr : ':' ∈ rest := by
        rcases List.mem_cons.mp h with h1 | h2
        · exact absurd h1.symm hc
        · exact h2
      simp [colonFound, hc, ih hr]

theorem pescapeColon_eq_escapeColon (s : List Char) :
    pescapeColon s = escapeColon s := by
  unfold pescapeColon
  by_cases h : colonFound s
  · simp [h]
  · have hn : ':' ∉ s := fun hmem => h (colonFound_of_mem s hmem)
    simp [h, escapeColon_of_no_colon s hn]

theorem escapeColon_head_ne_colon (s : List Char) :
    ∀ t, escapeColon s ≠ ':' :: t := by
  intro t h
  cases s with
  | nil => simp [escapeColon] at h
  | cons c rest =>
    by_cases hc : c = ':'
    · subst hc
      simp only [escapeColon, if_pos rfl] at h
      injection h with h1 _
      exact absurd h1 (by decide)
    · simp only [escapeColon, if_neg hc] at h
      injection h with h1 _
      exact hc h1

theorem escapeColon_eq_nil_iff (s : List Char) :
    escapeColon s = [] ↔ s = [] := by
  cases s with
  | nil => simp [escapeColon]
  | cons c rest =>
    constructor
    · intro h
      by_cases hc : c = ':' <;> simp [escapeColon, hc] at h
    · intro h
      cases h

/-- Round trip: splitting the escaped text on unescaped colons yields the
original text as the single field. -/
theorem splitUnescColon_escapeColon (s : List Char) :
    splitUnescColon (escapeColon s) = [s] := by
  induction s with
  | nil => rfl
  | cons c rest ih =>
    by_cases hc : c = ':'
    · subst hc
      simp only [escapeColon, if_pos rfl]
      simp [splitUnescColon, ih, consField]
    · by_cases hb : c = '\\'
      · subst hb
        simp only [escapeColon, if_neg hc]
        rcases hrest : escapeColon rest with _ | ⟨c', r'⟩
        · have h0 : rest = [] := (escapeColon_eq_nil_iff rest).mp hrest
          subst h0
          simp [splitUnescColon, consField]
        · have hc' : c' ≠ ':' := by
            intro h
            exact escapeColon_head_ne_colon rest r' (by rw [hrest, h])
          rw [hrest] at ih
          simp [splitUnescColon, hc', ih, consField]
      · simp only [escapeColon, if_neg hc]
        rcases hrest : escapeColon rest with _ | ⟨c', r'⟩
        · have h0 : rest = [] := (escapeColon_eq_nil_iff rest).mp hrest
          subst h0
          simp [splitUnescColon, hc]
        · rw [hrest] at ih
          simp [splitUnescColon, hb, hc, ih, consField]


theorem resolveOne_names (m : String → List String) (done : List Cmd) (nt : NT)
    (c c2 : Cmd) (nt2 : NT) (h : resolveOne m done nt c = .ok (c2, nt2)) :
    nt2 = match defines c with
          | some v => ntSet nt v done.length
          | none => nt := by
  cases hp : c.pay with
  | pdef v path ds cf reqs =>
    simp only [resolveOne, hp] at h
    injection h with h'
    rw [Prod.mk.injEq] at h'
    simp only [defines, hp]
    exact h'.2.symm
  | pvdef v ds rpn ref =>
    rcases hnt : nt ds with _ | rIdx <;> simp only [resolveOne, hp, hnt] at h
    · exact Except.noConfusion h
    · injection h with h'
      rw [Prod.mk.injEq] at h'
      simp only [defines, hp]
      exact h'.2.symm
  | pcdef v rpns rpn ref =>
    rcases hsc : cdefScan done nt rpns ref c.dref with ⟨rpns2, ref2, dr2⟩
    simp only [resolveOne, hp, hsc] at h
    injection h with h'
    rw [Prod.mk.injEq] at h'
    simp only [defines, hp]
    exact h'.2.symm
  | pline ln v colour legend args =>
    rcases hnt : ntGet nt v with _ | rIdx <;> simp only [resolveOne, hp, hnt] at h
    · exact Except.noConfusion h
    · injection h with h'
      rw [Prod.mk.injEq] at h'
      simp only [defines, hp]
      exact h'.2.symm
  | parea v colour legend args =>
    rcases hnt : ntGet nt v with _ | rIdx <;> simp only [resolveOne, hp, hnt] at h
    · exact Except.noConfusion h
    · injection h with h'
      rw [Prod.mk.injEq] at h'
      simp only [defines, hp]
      exact h'.2.symm
  | ptick v colour fraction legend args =>
    rcases hnt : ntGet nt v with _ | rIdx <;> simp only [resolveOne, hp, hnt] at h
    · exact Except.noConfusion h
    · injection h with h'
      rw [Prod.mk.injEq] at h'
      simp only [defines, hp]
      exact h'.2.symm
  | pshift v sh =>
    rcases hnt : nt v with _ | rIdx <;> simp only [resolveOne, hp, hnt] at h
    · exact Except.noConfusion h
    · injection h with h'
      rw [Prod.mk.injEq] at h'
      simp only [defines, hp]
      exact h'.2.symm
  | pprint v fmt =>
    rcases hnt : nt v with _ | rIdx <;> simp only [resolveOne, hp, hnt] at h
    · exact Except.noConfusion h
    · injection h with h'
      rw [Prod.mk.injEq] at h'
      simp only [defines, hp]
      exact h'.2.symm
  | pgprint v fmt =>
    rcases hnt : nt v with _ | rIdx <;> simp only [resolveOne, hp, hnt] at h
    · exact Except.noConfusion h
    · injection h with h'
      rw [Prod.mk.injEq] at h'
      simp only [defines, hp]
      exact h'.2.symm
  | pvrule val colour legend args =>
    simp only [resolveOne, hp] at h
    injection h with h'
    rw [Prod.mk.injEq] at h'
    simp only [defines, hp]
    exact h'.2.symm
  | phrule val colour legend args =>
    simp only [resolveOne, hp] at h
    injection h with h'
    rw [Prod.mk.injEq] at h'
    simp only [defines, hp]
    exact h'.2.symm
  | pcomment el legend =>
    simp only [resolveOne, hp] at h
    injection h with h'
    rw [Prod.mk.injEq] at h'
    simp only [defines, hp]
    exact h'.2.symm
  | ptextalign el legend =>
    simp only [resolveOne, hp] at h
    injection h with h'
    rw [Prod.mk.injEq] at h'
    simp only [defines, hp]
    exact h'.2.symm

theorem resolveFrom_append (m : String → List String) (l1 l2 : List Cmd) :
    ∀ (done : List Cmd) (nt : NT),
    resolveFrom m done nt (l1 ++ l2) =
      match resolveFrom m done nt l1 with
      | .error e => .error e
      | .ok (d2, n2) => resolveFrom m d2 n2 l2 := by
  induction l1 with
  | nil => intro done nt; simp [resolveFrom]
  | cons c rest ih =>
    intro done nt
    simp only [List.cons_append, resolveFrom]
    rcases hr : resolveOne m done nt c with e | ⟨c2, nt2⟩
    · rfl
    · exact ih (done ++ [c2]) nt2

theorem resolveFrom_names (m : String → List String) (l : List Cmd) :
    ∀ (done : List Cmd) (nt : NT) (d2 : List Cmd) (n2 : NT),
    resolveFrom m done nt l = .ok (d2, n2) →
    ∀ v, n2 v = applyDefs nt l done.length v := by
  induction l with
  | nil =>
    intro done nt d2 n2 h v
    simp only [resolveFrom] at h
    injection h with h'
    rw [Prod.mk.injEq] at h'
    rw [← h'.2]
    rfl
  | cons c rest ih =>
    intro done nt d2 n2 h v
    simp only [resolveFrom] at h
    rcases hr : resolveOne m done nt c with e | ⟨c2, nt2⟩ <;> rw [hr] at h
    · exact Except.noConfusion h
    · have hnames := resolveOne_names m done nt c c2 nt2 hr
      have hrec := ih (done ++ [c2]) nt2 d2 n2 h v
      rw [hrec]
      simp only [applyDefs, List.length_append, List.length_singleton, hnames]

theorem applyDefs_no_def (v : String) (l : List Cmd) :
    ∀ (nt : NT) (i : Nat), (∀ c ∈ l, defines c ≠ some v) →
    applyDefs nt l i v = nt v := by
  induction l with
  | nil => intro nt i _; rfl
  | cons c rest ih =>
    intro nt i h
    have h1 : defines c ≠ some v := h c (List.mem_cons_self _ _)
    have h2 : ∀ c2 ∈ rest, defines c2 ≠ some v :=
      fun c2 hm => h c2 (List.mem_cons_of_mem _ hm)
    rcases hd : defines c with _ | w
    · simp only [applyDefs, hd]
      exact ih nt (i + 1) h2
    · have hvw : ¬ (v = w) := by
        intro he
        exact h1 (by rw [hd, he])
      simp only [applyDefs, hd]
      rw [ih _ (i + 1) h2]
      simp [ntSet, hvw]

theorem applyDefs_append (l1 l2 : List Cmd) : ∀ (nt : NT) (i : Nat),
    applyDefs nt (l1 ++ l2) i = applyDefs (applyDefs nt l1 i) l2 (i + l1.length) := by
  induction l1 with
  | nil => intro nt i; simp [applyDefs]
  | cons c rest ih =>
    intro nt i
    rw [List.cons_append]
    simp only [applyDefs]
    rw [ih]
    have harith : i + 1 + rest.length = i + (c :: rest).length := by
      simp only [List.length_cons]
      omega
    rw [harith]

theorem resolveFrom_structure (m : String → List String) (l : List Cmd) :
    ∀ (done : List Cmd) (nt : NT) (d2 : List Cmd) (n2 : NT),
    resolveFrom m done nt l = .ok (d2, n2) →
    done <+: d2 ∧ d2.length = done.length + l.length := by
  induction l with
  | nil =>
    intro done nt d2 n2 h
    simp only [resolveFrom] at h
    injection h with h'
    rw [Prod.mk.injEq] at h'
    rw [← h'.1]
    exact ⟨⟨[], List.append_nil _⟩, by simp⟩
  | cons c rest ih =>
    intro done nt d2 n2 h
    simp only [resolveFrom] at h
    rcases hr : resolveOne m done nt c with e | ⟨c2, nt2⟩ <;> rw [hr] at h
    · exact Except.noConfusion h
    · obtain ⟨hpre, hlen⟩ := ih (done ++ [c2]) nt2 d2 n2 h
      have hstep : done <+: done ++ [c2] := ⟨[c2], rfl⟩
      refine ⟨hstep.trans hpre, ?_⟩
      simp at hlen ⊢
      omega

theorem getElem?_of_append_one (l1 l2 : List Cmd) (x : Cmd)
    (h : (l1 ++ [x]) <+: l2) : l2[l1.length]? = some x := by
  obtain ⟨t, ht⟩ := h
  have h1 : ((l1 ++ [x]) ++ t)[l1.length]? = (l1 ++ [x])[l1.length]? := by
    rw [List.getElem?_append]
    simp
  rw [← ht, h1]
  simp

theorem resolveOne_ref_err (m : String → List String) (done : List Cmd)
    (nt : NT) (c : Cmd) (v : String) (href : refName c = some v)
    (hv : nt v = none) :
    ∃ e, resolveOne m done nt c = .error e ∧ e.status = HTTP_BAD_REQUEST
      ∧ v.data <:+: e.msg.data := by
  cases hp : c.pay <;> simp only [refName, hp] at href
  case pdef _ _ _ _ _ => exact Option.noConfusion href
  case pcdef _ _ _ _ => exact Option.noConfusion href
  case pvrule _ _ _ _ => exact Option.noConfusion href
  case phrule _ _ _ _ => exact Option.noConfusion href
  case pcomment _ _ => exact Option.noConfusion href
  case ptextalign _ _ => exact Option.noConfusion href
  case pvdef vn ds rpn ref =>
    injection href with href
    subst href
    refine ⟨⟨HTTP_BAD_REQUEST,
      "While parsing VDEF " ++ sq ++ vn ++ sq ++ ": " ++ sq ++ ds ++ sq
        ++ " was not found"⟩, ?_, rfl, ?_⟩
    · simp [resolveOne, hp, hv]
    · exact ⟨("While parsing VDEF " ++ sq ++ vn ++ sq ++ ": " ++ sq).data,
        (sq ++ " was not found").data, by simp [String.data_append]⟩
  case pline ln vn colour legend args =>
    subst href
    refine ⟨⟨HTTP_BAD_REQUEST,
      "While parsing LINE: " ++ sq ++ cstr (some v) ++ sq
        ++ " was not found"⟩, ?_, rfl, ?_⟩
    · simp [resolveOne, hp, ntGet, hv]
    · exact ⟨("While parsing LINE: " ++ sq).data,
        (sq ++ " was not found").data, by simp [String.data_append, cstr]⟩
  case parea vn colour legend args =>
    subst href
    refine ⟨⟨HTTP_BAD_REQUEST,
      "While parsing AREA: " ++ sq ++ cstr (some v) ++ sq
        ++ " was not found"⟩, ?_, rfl, ?_⟩
    · simp [resolveOne, hp, ntGet, hv]
    · exact ⟨("While parsing AREA: " ++ sq).data,
        (sq ++ " was not found").data, by simp [String.data_append, cstr]⟩
  case ptick vn colour fraction legend args =>
    subst href
    refine ⟨⟨HTTP_BAD_REQUEST,
      "While parsing TICK: " ++ sq ++ cstr (some v) ++ sq
        ++ " was not found"⟩, ?_, rfl, ?_⟩
    · simp [resolveOne, hp, ntGet, hv]
    · exact ⟨("While parsing TICK: " ++ sq).data,
        (sq ++ " was not found").data, by simp [String.data_append, cstr]⟩
  case pshift vn sh =>
    injection href with href
    subst href
    refine ⟨⟨HTTP_BAD_REQUEST,
      "While parsing SHIFT: " ++ sq ++ vn ++ sq ++ " was not found"⟩,
      ?_, rfl, ?_⟩
    · simp [resolveOne, hp, hv]
    · exact ⟨("While parsing SHIFT: " ++ sq).data,
        (sq ++ " was not found").data, by simp [String.data_append]⟩
  case pprint vn fmt =>
    injection href with href
    subst href
    refine ⟨⟨HTTP_BAD_REQUEST,
      "While parsing PRINT: " ++ sq ++ vn ++ sq ++ " was not found"⟩,
      ?_, rfl, ?_⟩
    · simp [resolveOne, hp, hv]
    · exact ⟨("While parsing PRINT: " ++ sq).data,
        (sq ++ " was not found").data, by simp [String.data_append]⟩
  case pgprint vn fmt =>
    injection href with href
    subst href
    refine ⟨⟨HTTP_BAD_REQUEST,
      "While parsing GPRINT: " ++ sq ++ vn ++ sq ++ " was not found"⟩,
      ?_, rfl, ?_⟩
    · simp [resolveOne, hp, hv]
    · exact ⟨("While parsing GPRINT: " ++ sq).data,
        (sq ++ " was not found").data, by simp [String.data_append]⟩

theorem resolveOne_ref_dref (m : String → List String) (done : List Cmd)
    (nt : NT) (c c2 : Cmd) (nt2 : NT) (v : String) (rIdx : Nat)
    (href : refName c = some v) (hv : nt v = some rIdx)
    (h : resolveOne m done nt c = .ok (c2, nt2)) :
    c2.dref = drefAt done rIdx := by
  cases hp : c.pay <;> simp only [refName, hp] at href
  case pdef _ _ _ _ _ => exact Option.noConfusion href
  case pcdef _ _ _ _ => exact Option.noConfusion href
  case pvrule _ _ _ _ => exact Option.noConfusion href
  case phrule _ _ _ _ => exact Option.noConfusion href
  case pcomment _ _ => exact Option.noConfusion href
  case ptextalign _ _ => exact Option.noConfusion href
  case pvdef vn ds rpn ref =>
    injection href with href
    subst href
    simp only [resolveOne, hp, hv] at h
    injection h with h'
    rw [Prod.mk.injEq] at h'
    rw [← h'.1]
  case pline ln vn colour legend args =>
    subst href
    simp only [resolveOne, hp, ntGet, hv] at h
    injection h with h'
    rw [Prod.mk.injEq] at h'
    rw [← h'.1]
  case parea vn colour legend args =>
    subst href
    simp only [resolveOne, hp, ntGet, hv] at h
    injection h with h'
    rw [Prod.mk.injEq] at h'
    rw [← h'.1]
  case ptick vn colour fraction legend args =>
    subst href
    simp only [resolveOne, hp, ntGet, hv] at h
    injection h with h'
    rw [Prod.mk.injEq] at h'
    rw [← h'.1]
  case pshift vn sh =>
    injection href with href
    subst href
    simp only [resolveOne, hp, hv] at h
    injection h with h'
    rw [Prod.mk.injEq] at h'
    rw [← h'.1]
  case pprint vn fmt =>
    injection href with href
    subst href
    simp only [resolveOne, hp, hv] at h
    injection h with h'
    rw [Prod.mk.injEq] at h'
    rw [← h'.1]
  case pgprint vn fmt =>
    injection href with href
    subst href
    simp only [resolveOne, hp, hv] at h
    injection h with h'
    rw [Prod.mk.injEq] at h'
    rw [← h'.1]

/-- C6: a command that references a vname not defined by any command
strictly earlier in the sequence makes resolution of the whole
specification fail with an HTTP_BAD_REQUEST unresolved-reference error
whose message cites the offending name — even when the name is defined
later (`post` is arbitrary and may define it). -/
theorem C6_forward_reference_rejected (m : String → List String)
    (pre post : List Cmd) (cm : Cmd) (v : String) (done : List Cmd) (nt : NT)
    (href : refName cm = some v)
    (hnodef : ∀ c ∈ pre, defines c ≠ some v)
    (hpre : resolveFrom m [] ntEmpty pre = .ok (done, nt)) :
    ∃ e, resolveRrds m (pre ++ cm :: post) = .error e
      ∧ e.status = HTTP_BAD_REQUEST ∧ v.data <:+: e.msg.data := by
  have hv : nt v = none := by
    have h1 := resolveFrom_names m pre [] ntEmpty done nt hpre v
    rw [h1]
    exact applyDefs_no_def v pre ntEmpty 0 hnodef
  obtain ⟨e, he, hst, hinf⟩ := resolveOne_ref_err m done nt cm v href hv
  refine ⟨e, ?_, hst, hinf⟩
  unfold resolveRrds
  rw [resolveFrom_append m pre (cm :: post) [] ntEmpty, hpre]
  simp only [resolveFrom, he]

/-- Witness for C6: a LINE referencing `a` before the DEF of `a` (which
appears later in the sequence) fails resolution with a 400 error citing
`a`. -/
theorem C6_forward_reference_rejected_witness :
    ∃ e, resolveRrds wildcardMatcher
        ([] ++ mkCmd (.pline "LINE1" (some "a") (some "00ff00") "L" "")
          :: [mkCmd (.pdef ("a") "*.rrd" "in" "AVERAGE" [])]) = .error e
      ∧ e.status = HTTP_BAD_REQUEST ∧ "a".data <:+: e.msg.data :=
  C6_forward_reference_rejected wildcardMatcher []
    [mkCmd (.pdef ("a") "*.rrd" "in" "AVERAGE" [])]
    (mkCmd (.pline "LINE1" (some "a") (some "00ff00") "L" "")) "a" [] ntEmpty
    rfl (fun c h => absurd h (List.not_mem_nil c)) rfl

/-- C8: when exactly two commands define the same vname `v` (at positions
`i = |pre|` and `j = |pre|+1+|mid|`, the second being a DEF), the name
table produced by resolution maps `v` to the LATER definition, and any
command that references `v` after the second definition resolves to it:
its backing-DEF pointer is the second DEF's index `j`. -/
theorem C8_last_definition_wins (m : String → List String)
    (pre mid post1 post2 : List Cmd) (ci cj cm : Cmd) (v : String)
    (rs : List Cmd) (nt : NT)
    (hdi : defines ci = some v)
    (hdj : DefinesAsDef cj v)
    (_hpre : ∀ c ∈ pre, defines c ≠ some v)
    (_hmid : ∀ c ∈ mid, defines c ≠ some v)
    (hpost1 : ∀ c ∈ post1, defines c ≠ some v)
    (hcm : defines cm ≠ some v)
    (hpost2 : ∀ c ∈ post2, defines c ≠ some v)
    (href : refName cm = some v)
    (hok : resolveRrds m (pre ++ ci :: (mid ++ cj :: (post1 ++ cm :: post2))) =
      .ok (rs, nt)) :
    nt v = some (pre.length + 1 + mid.length)
    ∧ ∃ cm2, rs[pre.length + 1 + mid.length + 1 + post1.length]? = some cm2
        ∧ cm2.dref = some (pre.length + 1 + mid.length) := by
  obtain ⟨pathj, dsj, cfj, reqsj, hpj⟩ := hdj
  have hdj' : defines cj = some v := by simp [defines, hpj]
  have hval : applyDefs ntEmpty (pre ++ ci :: (mid ++ cj :: post1)) 0 v =
      some (pre.length + 1 + mid.length) := by
    rw [applyDefs_append]
    simp only [applyDefs, hdi]
    rw [applyDefs_append]
    simp only [applyDefs, hdj']
    rw [applyDefs_no_def v post1 _ _ hpost1]
    simp [ntSet]
  have hok' : resolveFrom m [] ntEmpty
      (pre ++ ci :: (mid ++ cj :: (post1 ++ cm :: post2))) = .ok (rs, nt) := hok
  have hsplit : pre ++ ci :: (mid ++ cj :: (post1 ++ cm :: post2)) =
      (pre ++ ci :: (mid ++ cj :: post1)) ++ (cm :: post2) := by
    simp [List.append_assoc]
  rw [hsplit, resolveFrom_append] at hok'
  rcases h1 : resolveFrom m [] ntEmpty (pre ++ ci :: (mid ++ cj :: post1))
    with e | ⟨d1, n1⟩ <;> rw [h1] at hok'
  · exact Except.noConfusion hok'
  have hn1 : n1 v = some (pre.length + 1 + mid.length) := by
    have hnm := resolveFrom_names m (pre ++ ci :: (mid ++ cj :: post1))
      [] ntEmpty d1 n1 h1 v
    rw [hnm]
    exact hval
  obtain ⟨_, hd1len⟩ := resolveFrom_structure m
    (pre ++ ci :: (mid ++ cj :: post1)) [] ntEmpty d1 n1 h1
  have hd1len' : d1.length = pre.length + 1 + mid.length + 1 + post1.length := by
    simp at hd1len
    omega
  simp only [resolveFrom] at hok'
  rcases h2 : resolveOne m d1 n1 cm with e | ⟨cm2, nt2⟩ <;> rw [h2] at hok'
  · exact Except.noConfusion hok'
  have hdref2 : cm2.dref = drefAt d1 (pre.length + 1 + mid.length) :=
    resolveOne_ref_dref m d1 n1 cm cm2 nt2 v (pre.length + 1 + mid.length)
      href hn1 h2
  have hsplit2 : pre ++ ci :: (mid ++ cj :: post1) =
      (pre ++ ci :: mid) ++ (cj :: post1) := by
    simp [List.append_assoc]
  rw [hsplit2, resolveFrom_append] at h1
  rcases h3 : resolveFrom m [] ntEmpty (pre ++ ci :: mid)
    with e | ⟨dj, nj⟩ <;> rw [h3] at h1
  · exact Except.noConfusion h1
  obtain ⟨_, hdjlen⟩ := resolveFrom_structure m (pre ++ ci :: mid)
    [] ntEmpty dj nj h3
  have hdjlen' : dj.length = pre.length + 1 + mid.length := by
    simp at hdjlen
    omega
  simp only [resolveFrom] at h1
  rcases h4 : resolveOne m dj nj cj with e | ⟨cj2, ntj2⟩ <;> rw [h4] at h1
  · exact Except.noConfusion h1
  have hcj2 : cj2 = Cmd.mk ((m pathj).length) (some (dj.length))
      (.pdef v pathj dsj cfj (m pathj)) := by
    simp only [resolveOne, hpj] at h4
    injection h4 with h4'
    rw [Prod.mk.injEq] at h4'
    exact h4'.1.symm
  obtain ⟨hpre1, _⟩ := resolveFrom_structure m post1 (dj ++ [cj2]) ntj2 d1 n1 h1
  have hd1j : d1[dj.length]? = some cj2 :=
    getElem?_of_append_one dj d1 cj2 hpre1
  have hdrefd1 : drefAt d1 (pre.length + 1 + mid.length) =
      some (pre.length + 1 + mid.length) := by
    have hstep : drefAt d1 dj.length = some dj.length := by
      simp [drefAt, hd1j, hcj2]
    rw [hdjlen'] at hstep
    exact hstep
  obtain ⟨hpre2, _⟩ := resolveFrom_structure m post2 (d1 ++ [cm2]) nt2 rs nt hok'
  have hrsm : rs[d1.length]? = some cm2 :=
    getElem?_of_append_one d1 rs cm2 hpre2
  have hntv : nt v = some (pre.length + 1 + mid.length) := by
    have h5 := resolveOne_names m d1 n1 cm cm2 nt2 h2
    have hnt2v : nt2 v = some (pre.length + 1 + mid.length) := by
      rcases hd : defines cm with _ | w
      · rw [h5]
        simp only [hd]
        exact hn1
      · have hvw : ¬ (v = w) := by
          intro he
          exact hcm (by rw [hd, he])
        rw [h5]
        simp only [hd, ntSet]
        simp [hvw]
        exact hn1
    have h6 := resolveFrom_names m post2 (d1 ++ [cm2]) nt2 rs nt hok' v
    rw [h6, applyDefs_no_def v post2 _ _ hpost2]
    exact hnt2v
  refine ⟨hntv, cm2, ?_, ?_⟩
  · rw [show pre.length + 1 + mid.length + 1 + post1.length = d1.length from
      hd1len'.symm]
    exact hrsm
  · rw [hdref2]
    exact hdrefd1

/-- Witness for C8: two DEFs of `a` (the first matching one file, the
second two), then a LINE on `a`: the final table maps `a` to index 1 and
the resolved LINE's backing DEF is the second DEF. -/
theorem C8_last_definition_wins_witness :
    (ntSet (ntSet ntEmpty "a" 0) "a" 1) "a" = some 1
    ∧ ∃ cm2,
        ([⟨1, some 0, .pdef ("a") "one.rrd" "in" "AVERAGE" ["one.rrd"]⟩,
          ⟨2, some 1, .pdef ("a") "*.rrd" "out" "MAX" ["h1.rrd", "h2.rrd"]⟩,
          ⟨0, some 1, .pline "LINE1" (some "a") (some "00ff00") "L" ""⟩]
            : List Cmd)[2]? = some cm2
        ∧ cm2.dref = some 1 :=
  C8_last_definition_wins
    (fun p => if p = "one.rrd" then ["one.rrd"]
              else if p = "*.rrd" then ["h1.rrd", "h2.rrd"] else [])
    [] [] [] []
    (mkCmd (.pdef ("a") "one.rrd" "in" "AVERAGE" []))
    (mkCmd (.pdef ("a") "*.rrd" "out" "MAX" []))
    (mkCmd (.pline "LINE1" (some "a") (some "00ff00") "L" ""))
    "a" _ _
    rfl ⟨"*.rrd", "out", "MAX", [], rfl⟩
    (fun c h => absurd h (List.not_mem_nil c))
    (fun c h => absurd h (List.not_mem_nil c))
    (fun c h => absurd h (List.not_mem_nil c))
    (by decide)
    (fun c h => absurd h (List.not_mem_nil c))
    rfl rfl

/-- C9: `escape_colon` prefixes every `:` in its input with a backslash
(it equals the per-character expansion map) and `pescape_colon` returns
the input unchanged when it contains no colon; consequently splitting the
escaped legend text on unescaped colons yields back the original text as
the single field (escaping round-trip). -/
theorem C9_colon_escape_round_trip :
    (∀ s : List Char,
      escapeColon s = s.flatMap fun c => if c = ':' then ['\\', c] else [c])
    ∧ (∀ s : List Char, ':' ∉ s → pescapeColon s = s)
    ∧ (∀ s : List Char, splitUnescColon (pescapeColon s) = [s]) := by
  refine ⟨escapeColon_eq_flatMap, ?_, ?_⟩
  · intro s h
    simp [pescapeColon, colonFound_eq_false_of_no_colon s h]
  · intro s
    rw [pescapeColon_eq_escapeColon]
    exact splitUnescColon_escapeColon s

/-- Witness for C9 at concrete inputs: a colon-free legend is returned
unchanged, and a legend containing a colon round-trips through escaping
and consumer-side splitting. -/
theorem C9_colon_escape_round_trip_witness :
    pescapeColon ['a', 'b'] = ['a', 'b']
    ∧ splitUnescColon (pescapeColon ['a', ':', 'b']) = [['a', ':', 'b']] :=
  ⟨C9_colon_escape_round_trip.2.1 ['a', 'b'] (by decide),
   C9_colon_escape_round_trip.2.2 ['a', ':', 'b']⟩

/-- C7 (code bug): a no-value option key supplied bare in the query string
is REJECTED.  `parse_query` always hands `parse_option` a non-NULL value
(the empty remainder after `apr_cstr_tokenize("=", ...)`), so the
with-value branch runs and fails for `rigid`; only the configuration path
(`RRDGraphOption rigid`, NULL value) reaches the no-value branch and
accepts the key.  This contradicts the claim (and the module's own header
comment "Options are passed as query parameters, either as a name value
pair, or a name only for options that do not take a parameter"). -/
theorem C7_bare_no_value_key_rejected :
    parseQuery [] [] "rigid" =
      .error ⟨HTTP_BAD_REQUEST, "Query was not recognised: rigid"⟩
    ∧ parseOption "rigid" (some "") = none
    ∧ parseOption "rigid" none = some ⟨"rigid", none⟩ :=
  ⟨rfl, rfl, rfl⟩

/-- C10 (code bug): parsing `COMMENT:hello` stores the word `COMMENT` but
loses the parsed legend (`cmd->a.legend` aliases the storage of
`e.elegend`, which `cmd->e.elegend = expr1` then overwrites; `e.legend` is
never assigned), so the generator emits `COMMENT:(null)` — not the
claimed word:colon:legend argument `COMMENT:hello`. -/
theorem C10_comment_legend_lost :
    parseElement "COMMENT:hello" = some (mkCmd (.pcomment "COMMENT" none))
    ∧ resolveAndGenerate wildcardMatcher [mkCmd (.pcomment "COMMENT" none)] =
        .ok ["COMMENT:(null)"]
    ∧ parseElement "TEXTALIGN:left" = some (mkCmd (.ptextalign "TEXTALIGN" none))
    ∧ resolveAndGenerate wildcardMatcher [mkCmd (.ptextalign "TEXTALIGN" none)] =
        .ok ["TEXTALIGN:(null)"]
    ∧ (["COMMENT:(null)"] : List String) ≠ ["COMMENT:hello"] := by
  refine ⟨rfl, rfl, rfl, rfl, ?_⟩
  decide

/-- C2: any DEF whose consolidation-function field contains `:daemon=` as
a substring is rejected by `generate_def` with HTTP_BAD_REQUEST and the
fixed message `daemonErrMsg` (a constant that does not depend on the
rejected value), before any multiplicity branch runs; the element loop of
`generate_args` propagates the error, failing the whole request, wherever
the DEF sits in the sequence. -/
theorem C2_daemon_rejected :
    (∀ (vname dsname cf : String) (requests : List String),
        (":daemon=".data) <:+: cf.data →
        generateDef vname dsname cf requests =
          .error ⟨HTTP_BAD_REQUEST, daemonErrMsg⟩)
    ∧ (∀ (all : List Cmd) (fuel i : Nat) (c : Cmd) (v path ds cf : String)
          (reqs : List String),
        all[i]? = some c → c.pay = .pdef v path ds cf reqs →
        (":daemon=".data) <:+: cf.data →
        genFrom all (fuel + 1) i = .error ⟨HTTP_BAD_REQUEST, daemonErrMsg⟩) := by
  constructor
  · intro vname dsname cf requests h
    simp [generateDef, h]
  · intro all fuel i c v path ds cf reqs hget hpay h
    simp [genFrom, hget, hpay, generateDef, h]

/-- Witness for C2: a concrete DEF with an embedded `:daemon=` override is
rejected by `generate_def` and by the element loop. -/
theorem C2_daemon_rejected_witness :
    generateDef "a" "in" "AVERAGE:daemon=unix:sock" ["f1"] =
      .error ⟨HTTP_BAD_REQUEST, daemonErrMsg⟩
    ∧ genFrom [mkCmd (.pdef ("a") "*.rrd" "in" "AVERAGE:daemon=unix" [])] 1 0 =
      .error ⟨HTTP_BAD_REQUEST, daemonErrMsg⟩ :=
  ⟨C2_daemon_rejected.1 "a" "in" "AVERAGE:daemon=unix:sock" ["f1"] (by decide),
   C2_daemon_rejected.2 [mkCmd (.pdef ("a") "*.rrd" "in" "AVERAGE:daemon=unix" [])]
     0 0 (mkCmd (.pdef ("a") "*.rrd" "in" "AVERAGE:daemon=unix" [])) "a" "*.rrd"
     "in" "AVERAGE:daemon=unix" [] rfl rfl (by decide)⟩

theorem flatMap_single {α β : Type} (f : α → β) (l : List α) :
    l.flatMap (fun j => [f j]) = l.map f := by
  induction l with
  | nil => rfl
  | cons x rest ih => simp [ih]

theorem foldl_zero_fixed (f : Nat → Nat → Nat) (hf : ∀ b, f 0 b = 0)
    (l : List Nat) : List.foldl f 0 l = 0 := by
  induction l with
  | nil => rfl
  | cons x rest ih => simp [List.foldl, hf, ih]

theorem absorbScan_nil (dr : Option Nat) (j : Nat) :
    absorbScan dr j [] = ([], none) := rfl

theorem absorbScan_break (dr : Option Nat) (j : Nat) (c2 : Cmd)
    (rest : List Cmd) (h : c2.dref ≠ dr) :
    absorbScan dr j (c2 :: rest) = ([], some 0) := by
  simp [absorbScan, h]

theorem absorbSkip_nil (dr : Option Nat) (n : Nat) : absorbSkip dr n [] = 0 := by
  unfold absorbSkip
  exact foldl_zero_fixed _ (fun b => by simp [absorbScan_nil]) _

theorem absorbSkip_break (dr : Option Nat) (n : Nat) (c2 : Cmd)
    (rest : List Cmd) (h : c2.dref ≠ dr) :
    absorbSkip dr n (c2 :: rest) = 0 := by
  unfold absorbSkip
  exact foldl_zero_fixed _ (fun b => by simp [absorbScan_break dr b c2 rest h]) _

/-- C1: the multiplicity invariant of the generator, stated for the three
cited emitters.  A DEF (with no daemon override) emits zero lines at
multiplicity 0, one unsuffixed line at multiplicity 1, and N `w<j>`-
suffixed lines plus the single aggregation CDEF bound to the unsuffixed
name at multiplicity N>1.  A PRINT emits 0 / 1 unsuffixed / N suffixed
lines by its backing DEF's multiplicity.  A LINE (in a position with no
following command sharing its backing DEF, so that absorption contributes
nothing) emits 0 / 1 unsuffixed / N suffixed lines and advances the loop
by 0. -/
theorem C1_multiplicity_invariant :
    (∀ (vname dsname cf : String) (requests : List String),
        ¬ (":daemon=".data) <:+: cf.data →
        (requests = [] → generateDef vname dsname cf requests = .ok [])
        ∧ (∀ f, requests = [f] →
            generateDef vname dsname cf requests =
              .ok ["DEF:" ++ vname ++ "=" ++ pescapeColonS f ++ ":" ++ dsname
                ++ ":" ++ cf])
        ∧ (2 ≤ requests.length →
            generateDef vname dsname cf requests =
              .ok ((requests.enum.map fun jf =>
                "DEF:" ++ vname ++ "w" ++ toString jf.1 ++ "="
                  ++ pescapeColonS jf.2 ++ ":" ++ dsname ++ ":" ++ cf)
                ++ [defAggLine vname requests.length])))
    ∧ (∀ (all : List Cmd) (c : Cmd) (v fmt : String) (d : Nat),
        c.dref = some d →
        (defNumAt all d = 0 → generatePrint all c v fmt = .ok [])
        ∧ (defNumAt all d = 1 →
            generatePrint all c v fmt = .ok ["PRINT:" ++ v ++ ":" ++ fmt])
        ∧ (2 ≤ defNumAt all d →
            generatePrint all c v fmt =
              .ok ((List.range (defNumAt all d)).map fun j =>
                "PRINT:" ++ v ++ "w" ++ toString j ++ ":" ++ fmt)))
    ∧ (∀ (all : List Cmd) (i : Nat) (c : Cmd) (ln v : String)
          (colour : Option String) (legend args : String) (d : Nat),
        c.dref = some d →
        (∀ c2, all[i + 1]? = some c2 → c2.dref ≠ c.dref) →
        (defNumAt all d = 0 →
            generateLine all i c ln (some v) colour legend args = .ok ([], 0))
        ∧ (defNumAt all d = 1 →
            generateLine all i c ln (some v) colour legend args =
              .ok ([ln ++ ":" ++ v ++ hashColour colour ++ ":" ++ legend
                ++ argsSuffix args], 0))
        ∧ (2 ≤ defNumAt all d →
            generateLine all i c ln (some v) colour legend args =
              .ok ((List.range (defNumAt all d)).map fun j =>
                ln ++ ":" ++ v ++ "w" ++ toString j ++ hashColour colour ++ ":"
                  ++ legend ++ argsSuffix args, 0))) := by
  refine ⟨?_, ?_, ?_⟩
  · intro vname dsname cf requests hd
    refine ⟨?_, ?_, ?_⟩
    · intro h
      subst h
      simp [generateDef, hd]
    · intro f h
      subst h
      simp [generateDef, hd]
    · intro h
      have h0 : requests.length ≠ 0 := by omega
      have h1 : requests.length ≠ 1 := by omega
      simp [generateDef, hd, h0, h1]
  · intro all c v fmt d hdref
    refine ⟨?_, ?_, ?_⟩
    · intro h
      simp [generatePrint, hdref, h]
    · intro h
      simp [generatePrint, hdref, h]
    · intro h
      have h0 : defNumAt all d ≠ 0 := by omega
      have h1 : defNumAt all d ≠ 1 := by omega
      simp [generatePrint, hdref, h0, h1]
  · intro all i c ln v colour legend args d hdref hnext
    have hscan : ∀ j, absorbScan c.dref j (all.drop (i + 1)) = ([], none)
        ∨ absorbScan c.dref j (all.drop (i + 1)) = ([], some 0) := by
      intro j
      rcases hdrop : all.drop (i + 1) with _ | ⟨c2, rest⟩
      · exact Or.inl (absorbScan_nil _ j)
      · right
        have hc2 : all[i + 1]? = some c2 := by
          have : (all.drop (i + 1))[0]? = all[i + 1]? := by
            rw [List.getElem?_drop]
          rw [hdrop] at this
          simpa using this.symm
        exact absorbScan_break _ j c2 rest (hnext c2 hc2)
    have hskip : absorbSkip c.dref (defNumAt all d) (all.drop (i + 1)) = 0 := by
      unfold absorbSkip
      refine foldl_zero_fixed _ (fun b => ?_) _
      rcases hscan b with h | h <;> simp [h]
    refine ⟨?_, ?_, ?_⟩
    · intro h
      simp [generateLine, hdref, h]
    · intro h
      simp [generateLine, hdref, h, cstr]
    · intro h
      have h0 : defNumAt all d ≠ 0 := by omega
      have h1 : defNumAt all d ≠ 1 := by omega
      have hlines : (List.range (defNumAt all d)).flatMap (fun j =>
          (ln ++ ":" ++ cstr (some v) ++ "w" ++ toString j ++ hashColour colour
            ++ ":" ++ legend ++ argsSuffix args)
            :: (absorbScan c.dref j (all.drop (i + 1))).1) =
          (List.range (defNumAt all d)).map fun j =>
            ln ++ ":" ++ v ++ "w" ++ toString j ++ hashColour colour ++ ":"
              ++ legend ++ argsSuffix args := by
        rw [← flatMap_single (fun j =>
          ln ++ ":" ++ v ++ "w" ++ toString j ++ hashColour colour ++ ":"
            ++ legend ++ argsSuffix args) (List.range (defNumAt all d))]
        apply List.flatMap_congr
        intro j _
        rcases hscan j with hs | hs <;> simp [hs, cstr]
      rw [hdref] at hlines hskip
      simp only [generateLine, hdref, if_neg h0, if_neg h1]
      rw [hlines, hskip]

/-- Witness for C1 at concrete inputs: a DEF at multiplicities 0, 1 and 2,
a PRINT and a LINE backed by a multiplicity-2 DEF. -/
theorem C1_multiplicity_invariant_witness :
    generateDef "a" "in" "AVERAGE" [] = .ok []
    ∧ generateDef "a" "in" "AVERAGE" ["f1"] = .ok ["DEF:a=f1:in:AVERAGE"]
    ∧ generateDef "a" "in" "AVERAGE" ["f1", "f2"] =
        .ok ["DEF:aw0=f1:in:AVERAGE", "DEF:aw1=f2:in:AVERAGE", "CDEF:a=aw0,aw1,+"]
    ∧ generatePrint [⟨2, some 0, .pdef ("a") "*.rrd" "in" "AVERAGE" ["f1", "f2"]⟩]
        ⟨0, some 0, .pprint "a" "%lf"⟩ "a" "%lf" =
        .ok ["PRINT:aw0:%lf", "PRINT:aw1:%lf"]
    ∧ generateLine
        [⟨2, some 0, .pdef ("a") "*.rrd" "in" "AVERAGE" ["f1", "f2"]⟩,
         ⟨0, some 0, .pline "LINE1" (some "a") (some "00ff00") "L" ""⟩]
        1 ⟨0, some 0, .pline "LINE1" (some "a") (some "00ff00") "L" ""⟩
        "LINE1" "a" (some "00ff00") "L" "" =
        .ok (["LINE1:aw0#00ff00:L", "LINE1:aw1#00ff00:L"], 0) := by
  refine ⟨(C1_multiplicity_invariant.1 "a" "in" "AVERAGE" [] (by decide)).1 rfl,
    (C1_multiplicity_invariant.1 "a" "in" "AVERAGE" ["f1"] (by decide)).2.1 "f1" rfl,
    (C1_multiplicity_invariant.1 "a" "in" "AVERAGE" ["f1", "f2"]
      (by decide)).2.2 (by decide),
    (C1_multiplicity_invariant.2.1 _ _ "a" "%lf" 0 rfl).2.2 (by decide),
    (C1_multiplicity_invariant.2.2 _ 1 _ "LINE1" "a" (some "00ff00") "L" "" 0 rfl
      (fun c2 h => by simp at h)).2.2 (by decide)⟩

/-- C5 (code bug): when the absorbed PRINT is the LAST command of the
sequence, the absorption scan runs off the end without recording a break
offset, `skip` stays 0, and the main loop generates the absorbed PRINT
again — the two `PRINT:aw<j>` lines appear twice.  With a trailing
non-sharing command the skip works and there is no duplication. -/
theorem C5_absorbed_print_reemitted :
    resolveAndGenerate wildcardMatcher absorbTailCmds =
      .ok ["DEF:aw0=h1.rrd:in:AVERAGE", "DEF:aw1=h2.rrd:in:AVERAGE",
           "CDEF:a=aw0,aw1,+",
           "LINE1:aw0#00ff00:L", "PRINT:aw0:%lf",
           "LINE1:aw1#00ff00:L", "PRINT:aw1:%lf",
           "PRINT:aw0:%lf", "PRINT:aw1:%lf"]
    ∧ resolveAndGenerate wildcardMatcher
        (absorbTailCmds ++ [mkCmd (.pcomment "COMMENT" none)]) =
      .ok ["DEF:aw0=h1.rrd:in:AVERAGE", "DEF:aw1=h2.rrd:in:AVERAGE",
           "CDEF:a=aw0,aw1,+",
           "LINE1:aw0#00ff00:L", "PRINT:aw0:%lf",
           "LINE1:aw1#00ff00:L", "PRINT:aw1:%lf",
           "COMMENT:(null)"] :=
  ⟨rfl, rfl⟩

theorem cdefScan_withRef (done : List Cmd) (nt : NT) (rpns : List Rpn)
    (r : Nat) (dr : Option Nat) :
    cdefScan done nt rpns (some r) dr = (rpns, some r, dr) := by
  induction rpns with
  | nil => rfl
  | cons rp rest ih => simp [cdefScan, ih]

theorem cdefScan_noHits (done : List Cmd) (nt : NT) (rpns : List Rpn)
    (dr : Option Nat) (h : ∀ rp ∈ rpns, nt rp.rpn = none) :
    cdefScan done nt rpns none dr = (rpns, none, dr) := by
  induction rpns with
  | nil => rfl
  | cons rp rest ih =>
    have h0 : nt rp.rpn = none := h rp (List.mem_cons_self rp rest)
    have hr : ∀ rp2 ∈ rest, nt rp2.rpn = none :=
      fun rp2 hm => h rp2 (List.mem_cons_of_mem rp hm)
    simp [cdefScan, h0, ih hr]

theorem cdefScan_split (done : List Cmd) (nt : NT) (preT postT : List Rpn)
    (rp0 : Rpn) (r : Nat) (dr : Option Nat)
    (hpre : ∀ rp ∈ preT, nt rp.rpn = none) (h0 : nt rp0.rpn = some r) :
    cdefScan done nt (preT ++ rp0 :: postT) none dr =
      (preT ++ { rp0 with rdef := drefAt done r } :: postT, some r,
       drefAt done r) := by
  induction preT with
  | nil =>
    simp [cdefScan, h0, cdefScan_withRef]
  | cons rp rest ih =>
    have hn : nt rp.rpn = none := hpre rp (List.mem_cons_self rp rest)
    have hr : ∀ rp2 ∈ rest, nt rp2.rpn = none :=
      fun rp2 hm => hpre rp2 (List.mem_cons_of_mem rp hm)
    simp [cdefScan, hn, ih hr]

/-- C3 (amended): resolving a CDEF none of whose RPN tokens is in the name
table succeeds (no error) with multiplicity 0 and no backing DEF, and
registers the CDEF's own name; but the generator then rejects the request
with HTTP_BAD_REQUEST instead of emitting zero lines. -/
theorem C3_pure_literal_cdef (m : String → List String) (done : List Cmd)
    (nt : NT) (c : Cmd) (v rpn : String) (rpns : List Rpn)
    (hp : c.pay = .pcdef v rpns rpn none) (hnum : c.num = 0)
    (hdref : c.dref = none) (h : ∀ rp ∈ rpns, nt rp.rpn = none) :
    resolveOne m done nt c =
      .ok ({ num := 0, dref := none, pay := .pcdef v rpns rpn none },
           ntSet nt v done.length)
    ∧ ∀ (all : List Cmd) (c2 : Cmd), c2.dref = none →
        generateCdef all c2 v rpn rpns =
          .error ⟨HTTP_BAD_REQUEST,
            "CDEF element " ++ sq ++ v ++ sq
              ++ " referred to no existing definitions"⟩ := by
  constructor
  · have hscan := cdefScan_noHits done nt rpns none h
    simp [resolveOne, hp, hdref, hnum, hscan]
  · intro all c2 h2
    simp [generateCdef, h2]

/-- Witness for C3's amended theorem at a concrete pure-literal CDEF. -/
theorem C3_pure_literal_cdef_witness :
    resolveOne wildcardMatcher [] ntEmpty
      (mkCmd (.pcdef ("x") [⟨"1", none⟩, ⟨"2", none⟩, ⟨"+", none⟩] "1,2,+" none)) =
      .ok ({ num := 0, dref := none,
             pay := .pcdef ("x") [⟨"1", none⟩, ⟨"2", none⟩, ⟨"+", none⟩]
               "1,2,+" none },
           ntSet ntEmpty "x" 0)
    ∧ generateCdef [] (mkCmd (.pcdef ("x") [⟨"1", none⟩, ⟨"2", none⟩, ⟨"+", none⟩]
        "1,2,+" none)) "x" "1,2,+" [⟨"1", none⟩, ⟨"2", none⟩, ⟨"+", none⟩] =
        .error ⟨HTTP_BAD_REQUEST,
          "CDEF element " ++ sq ++ "x" ++ sq
            ++ " referred to no existing definitions"⟩ := by
  have h := C3_pure_literal_cdef wildcardMatcher [] ntEmpty
    (mkCmd (.pcdef ("x") [⟨"1", none⟩, ⟨"2", none⟩, ⟨"+", none⟩] "1,2,+" none))
    "x" "1,2,+" [⟨"1", none⟩, ⟨"2", none⟩, ⟨"+", none⟩] rfl rfl rfl
    (by intro rp hm; rfl)
  exact ⟨h.1, h.2 [] _ rfl⟩

/-- C4 (amended): when the generator expands a CDEF of multiplicity N>1,
only the FIRST RPN token that resolved in the name table is annotated with
a backing DEF and rewritten with the per-source suffix (and only when that
backing DEF's multiplicity is at least 2); every other token — including
later operands that name multi-valued commands — is emitted verbatim. -/
theorem C4_only_first_resolved_token_suffixed (done : List Cmd) (nt : NT)
    (preT postT : List Rpn) (rp0 : Rpn) (r : Nat) (dr : Option Nat)
    (hpre : ∀ rp ∈ preT, nt rp.rpn = none) (h0 : nt rp0.rpn = some r)
    (hunann : ∀ rp ∈ preT ++ postT, rp.rdef = none) :
    cdefScan done nt (preT ++ rp0 :: postT) none dr =
      (preT ++ { rp0 with rdef := drefAt done r } :: postT, some r,
       drefAt done r)
    ∧ ∀ (all : List Cmd) (j : Nat),
        (preT ++ { rp0 with rdef := drefAt done r } :: postT).map
            (cdefToken all j) =
          preT.map (·.rpn)
            ++ (match drefAt done r with
                | none => rp0.rpn
                | some rd =>
                  if numAt all rd < 2 then rp0.rpn
                  else rp0.rpn ++ "w" ++ toString j)
              :: postT.map (·.rpn) := by
  constructor
  · exact cdefScan_split done nt preT postT rp0 r dr hpre h0
  · intro all j
    have hverb : ∀ (l : List Rpn), (∀ rp ∈ l, rp.rdef = none) →
        l.map (cdefToken all j) = l.map (·.rpn) := by
      intro l hl
      induction l with
      | nil => rfl
      | cons rp rest ih =>
        have h1 : rp.rdef = none := hl rp (List.mem_cons_self rp rest)
        have h2 : ∀ rp2 ∈ rest, rp2.rdef = none :=
          fun rp2 hm => hl rp2 (List.mem_cons_of_mem rp hm)
        simp [cdefToken, h1, ih h2]
    have hpre2 : ∀ rp ∈ preT, rp.rdef = none :=
      fun rp hm => hunann rp (List.mem_append_left postT hm)
    have hpost2 : ∀ rp ∈ postT, rp.rdef = none :=
      fun rp hm => hunann rp (List.mem_append_right preT hm)
    rw [List.map_append, List.map_cons, hverb preT hpre2, hverb postT hpost2]
    rcases hdr : drefAt done r with _ | rd
    · simp [cdefToken, hdr]
    · simp [cdefToken, hdr]

/-- Witness for C4's amended theorem on the counterexample's CDEF
(`x = a,b,+` with both `a` and `b` of multiplicity 2): the rewritten token
lists keep `b` and `+` verbatim and suffix only `a`. -/
theorem C4_only_first_resolved_token_suffixed_witness :
    cdefScan
      [⟨2, some 0, .pdef ("a") "*.rrd" "in" "AVERAGE" ["h1.rrd", "h2.rrd"]⟩,
       ⟨2, some 1, .pdef ("b") "*.rrd" "out" "AVERAGE" ["h1.rrd", "h2.rrd"]⟩]
      (ntSet (ntSet ntEmpty "a" 0) "b" 1)
      [⟨"a", none⟩, ⟨"b", none⟩, ⟨"+", none⟩] none none =
      ([⟨"a", some 0⟩, ⟨"b", none⟩, ⟨"+", none⟩], some 0, some 0)
    ∧ ([(⟨"a", some 0⟩ : Rpn), ⟨"b", none⟩, ⟨"+", none⟩].map
        (cdefToken
          [⟨2, some 0, .pdef ("a") "*.rrd" "in" "AVERAGE" ["h1.rrd", "h2.rrd"]⟩,
           ⟨2, some 1, .pdef ("b") "*.rrd" "out" "AVERAGE" ["h1.rrd", "h2.rrd"]⟩]
          0)) = ["aw0", "b", "+"] := by
  have h := C4_only_first_resolved_token_suffixed
    [⟨2, some 0, .pdef ("a") "*.rrd" "in" "AVERAGE" ["h1.rrd", "h2.rrd"]⟩,
     ⟨2, some 1, .pdef ("b") "*.rrd" "out" "AVERAGE" ["h1.rrd", "h2.rrd"]⟩]
    (ntSet (ntSet ntEmpty "a" 0) "b" 1)
    [] [⟨"b", none⟩, ⟨"+", none⟩] ⟨"a", none⟩ 0 none
    (by intro rp hm; cases hm) rfl (by decide)
  exact ⟨h.1, h.2 _ 0⟩

/-- C3 counterexample: a pure-literal CDEF resolves without error with
multiplicity 0, but the pipeline does NOT complete: the generator rejects
the request with HTTP_BAD_REQUEST instead of emitting zero lines. -/
theorem C3_counterexample_pure_literal_cdef_rejected :
    resolveList wildcardMatcher pureLiteralCdefCmds =
      .ok [{ num := 0, dref := none,
             pay := .pcdef ("x") [⟨"1", none⟩, ⟨"2", none⟩, ⟨"+", none⟩]
               "1,2,+" none }]
    ∧ resolveAndGenerate wildcardMatcher pureLiteralCdefCmds =
        .error ⟨HTTP_BAD_REQUEST,
          "CDEF element " ++ sq ++ "x" ++ sq
            ++ " referred to no existing definitions"⟩ :=
  ⟨rfl, rfl⟩

/-- C4 counterexample: in `CDEF:x=a,b,+` with both `a` and `b` wildcard
DEFs of multiplicity 2, the emitted per-source lines keep the second
operand `b` UNSUFFIXED (`CDEF:xw0=aw0,b,+`), although `b` names a command
of multiplicity 2 — the claim would require `CDEF:xw0=aw0,bw0,+`. -/
theorem C4_counterexample_second_operand_not_suffixed :
    resolveAndGenerate wildcardMatcher cdefTwoDefsCmds =
      .ok ["DEF:aw0=h1.rrd:in:AVERAGE", "DEF:aw1=h2.rrd:in:AVERAGE",
           "CDEF:a=aw0,aw1,+",
           "DEF:bw0=h1.rrd:out:AVERAGE", "DEF:bw1=h2.rrd:out:AVERAGE",
           "CDEF:b=bw0,bw1,+",
           "CDEF:xw0=aw0,b,+", "CDEF:xw1=aw1,b,+"]
    ∧ (resolveList wildcardMatcher cdefTwoDefsCmds).map (fun rs => numAt rs 1) =
        .ok 2
    ∧ ("CDEF:xw0=aw0,b,+" : String) ≠ "CDEF:xw0=aw0,bw0,+" := by
  refine ⟨rfl, rfl, ?_⟩
  decide

end ModRrd
